import Mathlib

/-!
# Status computation of the MongoDB cluster controller

A shallow embedding of `pkg/controller/perconaservermongodb/status.go`:
`rsStatus`, `upgradeInProgress`, `connectionEndpoint`,
`loadBalancerServiceEndpoint`, `writeStatus` and `updateStatus`.

Conventions of the embedding.
* The Kubernetes client is an explicit record `Env` of query results; every
  client call made by the code is also written to a call log, in order.
* Go errors are their message text; `errors.Wrap(err, m)` is `m ++ ": " ++ err`.
* A Go run-time panic (index out of range, write to a nil map) is an explicit
  result, never a silent default.
* `time.Now()` is the single clock value `Env.now`, in nanoseconds.
* `int32`, `int64` and `int` values are unbounded integers: no count of this
  code comes near the word size.
* The record types of package `api` and `corev1` are not part of the sources
  at hand; they are declared here with exactly the fields `status.go` touches.
-/

namespace Psmdb

/-! ## Data model -/

/-- Bound on the number of conditions kept (`maxStatusesQuantity`). -/
def maxStatusesQuantity : Nat := 20

/-- Desired signal passed by the caller (`mongoClusterState`). -/
inductive mongoClusterState
  | clusterReady
  | clusterInit
  | clusterError
  deriving DecidableEq

/-- Modelled from the spec: the type `api.AppState` is declared outside the
sources at hand; the spec gives the states Init, Ready and Error. `unset` is the
zero value of the Go type, carried by a freshly allocated `ReplsetStatus`. -/
inductive AppState
  | unset
  | AppStateInit
  | AppStateReady
  | AppStateError
  deriving DecidableEq

/-- Modelled from the spec: the type `api.ClusterConditionType` is declared
outside the sources at hand; the spec gives the types Init, GroupReady, Ready and
Error, which are the four constants `status.go` uses. -/
inductive ClusterConditionType
  | ClusterInit
  | ClusterRSReady
  | ClusterReady
  | ClusterError
  deriving DecidableEq

/-- Three-valued condition status (`ConditionTrue`, `ConditionFalse`, `ConditionUnknown`). -/
inductive ConditionStatus
  | ConditionTrue
  | ConditionFalse
  | ConditionUnknown
  deriving DecidableEq

/-- One entry of the condition history (`api.ClusterCondition`). -/
structure ClusterCondition where
  Status : ConditionStatus
  Type_ : ClusterConditionType
  Message : String
  Reason : String
  LastTransitionTime : Int
  deriving DecidableEq

/-- Health of one replica set (`api.ReplsetStatus`). -/
structure ReplsetStatus where
  Size : Int
  Ready : Int
  Status : AppState
  Message : String
  Initialized : Bool
  AddedAsShard : Bool
  deriving DecidableEq

/-- The zero value `api.ReplsetStatus{}`. -/
def ReplsetStatus.zero : ReplsetStatus :=
  { Size := 0, Ready := 0, Status := AppState.unset, Message := "",
    Initialized := false, AddedAsShard := false }

/-- A Go `map[string]*ReplsetStatus`: `none` is the nil map, `some kvs` an
allocated map given by its key/value pairs (keys pairwise distinct). -/
abbrev ReplsetMap := Option (List (String × ReplsetStatus))

/-- Key lookup in a list of pairs. -/
def kvGet : List (String × ReplsetStatus) → String → Option ReplsetStatus
  | [], _ => none
  | (k, v) :: rest, key => if k = key then some v else kvGet rest key

/-- Assignment in a list of pairs: the value of an existing key is replaced
where it stands, a new key is added at the end. -/
def kvSet : List (String × ReplsetStatus) → String → ReplsetStatus → List (String × ReplsetStatus)
  | [], key, val => [(key, val)]
  | (k, v) :: rest, key, val =>
    if k = key then (k, val) :: rest else (k, v) :: kvSet rest key val

/-- Reading `m[key]` with the comma-ok form; reading a nil map finds nothing. -/
def mapGet (m : ReplsetMap) (key : String) : Option ReplsetStatus :=
  match m with
  | none => none
  | some kvs => kvGet kvs key

/-- Writing `m[key] = val`; `none` is the panic of a write to a nil map. -/
def mapSet (m : ReplsetMap) (key : String) (val : ReplsetStatus) : Option ReplsetMap :=
  match m with
  | none => none
  | some kvs => some (some (kvSet kvs key val))

/-- The status block of the custom resource (`cr.Status`). -/
structure Status where
  State : AppState
  Message : String
  Conditions : List ClusterCondition
  Replsets : ReplsetMap
  Host : String
  ObservedGeneration : Int
  deriving DecidableEq

/-- Kind of network service (`corev1.ServiceType`). -/
inductive ServiceType
  | ClusterIP
  | NodePort
  | LoadBalancer
  | ExternalName
  deriving DecidableEq

/-- Exposure settings of a replica set or of the routing tier. -/
structure Expose where
  Enabled : Bool
  ExposeType : ServiceType
  deriving DecidableEq

/-- Desired shape of one replica set (`api.ReplsetSpec`). -/
structure ReplsetSpec where
  Name : String
  Size : Int
  Expose : Expose
  deriving DecidableEq

/-- Routing tier settings (`cr.Spec.Sharding.Mongos`), taken as always present. -/
structure MongosSpec where
  Expose : Expose
  deriving DecidableEq

/-- Sharding settings (`cr.Spec.Sharding`). -/
structure Sharding where
  Enabled : Bool
  ConfigsvrReplSet : Option ReplsetSpec
  Mongos : MongosSpec
  deriving DecidableEq

/-- The part of `cr.Spec` read by the status code. -/
structure Spec where
  Replsets : List ReplsetSpec
  Sharding : Sharding
  ClusterServiceDNSSuffix : String
  deriving DecidableEq

/-- The custom resource (`api.PerconaServerMongoDB`). -/
structure CR where
  Name : String
  Namespace : String
  Generation : Int
  Spec : Spec
  Status : Status
  deriving DecidableEq

/-- Pod condition types (`corev1.PodConditionType`). -/
inductive PodConditionType
  | ContainersReady
  | PodInitialized
  | PodReady
  | PodScheduled
  deriving DecidableEq

/-- One reported pod condition (`corev1.PodCondition`). -/
structure PodCondition where
  Type_ : PodConditionType
  Status : ConditionStatus
  Reason : String
  Message : String
  LastTransitionTime : Int
  deriving DecidableEq

/-- Container status: its name and, when `State.Waiting` is not nil, the
message of the waiting state. -/
structure ContainerStatus where
  Name : String
  Waiting : Option String
  deriving DecidableEq

/-- The part of a pod read by the status code (`pod.Status`). -/
structure Pod where
  Conditions : List PodCondition
  ContainerStatuses : List ContainerStatus
  deriving DecidableEq

/-- Replica counters of a stateful set (`sfsObj.Status`). -/
structure StatefulSetStatus where
  Replicas : Int
  UpdatedReplicas : Int
  deriving DecidableEq

/-- One ingress point of a load balancer. -/
structure LoadBalancerIngress where
  IP : String
  Hostname : String
  deriving DecidableEq

/-- A call made on the Kubernetes client. -/
inductive Call
  | listPods (ns inst replset : String)
  | getStatefulSet (ns name : String)
  | getService (ns name : String)
  | getReplsetAddrs (replset : String)
  | statusUpdate
  | update
  deriving DecidableEq

/-- What the cluster answers during one cycle. `getReplsetAddrs` stands for
`psmdb.GetReplsetAddrs`, whose code is outside the sources at hand. The two
update operations answer `none` on success and the error text otherwise. -/
structure Env where
  now : Int
  listPods : String → String → String → Except String (List Pod)
  getStatefulSet : String → String → Except String StatefulSetStatus
  getService : String → String → Except String (List LoadBalancerIngress)
  getReplsetAddrs : ReplsetSpec → List Pod → Except String (List String)
  statusUpdate : Status → Option String
  update : Status → Option String

/-- The duration `time.Minute`, in nanoseconds. -/
def Minute : Int := 60 * 1000000000

/-- The constant `corev1.PodReasonUnschedulable`. -/
def PodReasonUnschedulable : String := "Unschedulable"

/-! ## rsStatus -/

/-- Inner loop of `rsStatus` over the container statuses of a pod: every
container waiting with a non-empty message adds `name: message; `. -/
def waitingMessages (cntrs : List ContainerStatus) (msg : String) : String :=
  cntrs.foldl
    (fun m cntr =>
      match cntr.Waiting with
      | some w => if w ≠ "" then m ++ (cntr.Name ++ ": " ++ w ++ "; ") else m
      | none => m)
    msg

/-- Test of the `PodScheduled` case: reason Unschedulable and last transition
before `now - 1 minute`. -/
def unschedulable (now : Int) (cond : PodCondition) : Bool :=
  decide (cond.Reason = PodReasonUnschedulable) &&
    decide (cond.LastTransitionTime < now + (-1) * Minute)

/-- Body of the `switch cond.Type` of `rsStatus` for one condition of `pod`. -/
def condStep (now : Int) (pod : Pod) (status : ReplsetStatus) (cond : PodCondition) :
    ReplsetStatus :=
  match cond.Type_ with
  | PodConditionType.ContainersReady =>
    if cond.Status = ConditionStatus.ConditionTrue then
      { status with Ready := status.Ready + 1 }
    else if cond.Status = ConditionStatus.ConditionFalse then
      { status with Message := waitingMessages pod.ContainerStatuses status.Message }
    else status
  | PodConditionType.PodScheduled =>
    if unschedulable now cond then
      { status with Status := AppState.AppStateError, Message := cond.Message }
    else status
  | _ => status

/-- Loop of `rsStatus` over the conditions of one pod. -/
def podStep (now : Int) (status : ReplsetStatus) (pod : Pod) : ReplsetStatus :=
  pod.Conditions.foldl (condStep now pod) status

/-- The part of `rsStatus` after a successful listing: both loops, then the
final comparison of size and ready count. -/
def rsStatusOf (now : Int) (rsSpec : ReplsetSpec) (items : List Pod) : ReplsetStatus :=
  let status : ReplsetStatus :=
    { Size := rsSpec.Size, Ready := 0, Status := AppState.AppStateInit, Message := "",
      Initialized := false, AddedAsShard := false }
  let status := items.foldl (podStep now) status
  if status.Size = status.Ready then { status with Status := AppState.AppStateReady } else status

/-- The function `rsStatus`: list the pods of the replica set, then evaluate. -/
def rsStatus (env : Env) (rsSpec : ReplsetSpec) (clusterName ns : String) :
    Except String ReplsetStatus :=
  match env.listPods ns clusterName rsSpec.Name with
  | Except.error err => Except.error ("get list: " ++ err)
  | Except.ok items => Except.ok (rsStatusOf env.now rsSpec items)

/-! ## upgradeInProgress, writeStatus, connectionEndpoint -/

/-- The function `upgradeInProgress`: more replicas than updated replicas. -/
def upgradeInProgress (env : Env) (cr : CR) (rsName : String) : Except String Bool :=
  match env.getStatefulSet cr.Namespace (cr.Name ++ "-" ++ rsName) with
  | Except.error err => Except.error err
  | Except.ok sfs => Except.ok (decide (sfs.Replicas > sfs.UpdatedReplicas))

/-- The function `writeStatus`: the error returned and the calls made. -/
def writeStatus (env : Env) (st : Status) : Option String × List Call :=
  match env.statusUpdate st with
  | none => (none, [Call.statusUpdate])
  | some _ =>
    match env.update st with
    | none => (none, [Call.statusUpdate, Call.update])
    | some err => (some ("send update: " ++ err), [Call.statusUpdate, Call.update])

/-- The function `loadBalancerServiceEndpoint`. -/
def loadBalancerServiceEndpoint (env : Env) (serviceName ns : String) : String × Option String :=
  match env.getService ns serviceName with
  | Except.error err => ("", some ("get service: " ++ err))
  | Except.ok ingress =>
    (ingress.foldl (fun _ i => if i.Hostname.length > 0 then i.Hostname else i.IP) "", none)

/-- Result of `connectionEndpoint`: a panic, or the pair of host and error. -/
inductive EndpointResult
  | panicked (calls : List Call)
  | returned (host : String) (err : Option String) (calls : List Call)
  deriving DecidableEq

/-- The function `connectionEndpoint`. Indexing `cr.Spec.Replsets[0]` on an
empty list is the panic. -/
def connectionEndpoint (env : Env) (cr : CR) : EndpointResult :=
  if cr.Spec.Sharding.Enabled then
    if cr.Spec.Sharding.Mongos.Expose.Enabled ∧
        cr.Spec.Sharding.Mongos.Expose.ExposeType = ServiceType.LoadBalancer then
      let r := loadBalancerServiceEndpoint env (cr.Name ++ "-mongos") cr.Namespace
      EndpointResult.returned r.1 r.2 [Call.getService cr.Namespace (cr.Name ++ "-mongos")]
    else
      EndpointResult.returned
        (cr.Name ++ "-mongos." ++ cr.Namespace ++ "." ++ cr.Spec.ClusterServiceDNSSuffix) none []
  else
    match cr.Spec.Replsets with
    | [] => EndpointResult.panicked []
    | rs :: _ =>
      if rs.Expose.Enabled ∧ rs.Expose.ExposeType = ServiceType.LoadBalancer then
        match env.listPods cr.Namespace cr.Name rs.Name with
        | Except.error err =>
          EndpointResult.returned "" (some ("list psmdb pods: " ++ err))
            [Call.listPods cr.Namespace cr.Name rs.Name]
        | Except.ok items =>
          match env.getReplsetAddrs rs items with
          | Except.error err =>
            EndpointResult.returned "" (some err)
              [Call.listPods cr.Namespace cr.Name rs.Name, Call.getReplsetAddrs rs.Name]
          | Except.ok addrs =>
            EndpointResult.returned (String.intercalate "," addrs) none
              [Call.listPods cr.Namespace cr.Name rs.Name, Call.getReplsetAddrs rs.Name]
      else
        EndpointResult.returned
          (cr.Name ++ "-" ++ rs.Name ++ "." ++ cr.Namespace ++ "." ++
            cr.Spec.ClusterServiceDNSSuffix) none []

/-! ## updateStatus -/

/-- The local variables of `updateStatus` that live across the loop over the
replica sets, with `cr.Status` and the log of client calls. -/
structure LoopState where
  Status : Status
  clusterCondition : ClusterCondition
  replsetsReady : Nat
  inProgress : Bool
  calls : List Call
  deriving DecidableEq

/-- How the loop over the replica sets (or one turn of it) ends. -/
inductive LoopResult
  | panicked
  | failed (ls : LoopState) (err : String)
  | finished (ls : LoopState)
  deriving DecidableEq

/-- The condition built at the top of `updateStatus`. -/
def initCondition (now : Int) : ClusterCondition :=
  { Status := ConditionStatus.ConditionTrue, Type_ := ClusterConditionType.ClusterInit,
    Message := "", Reason := "", LastTransitionTime := now }

/-- The condition built on a cycle error. -/
def reconcileErrorCondition (now : Int) (msg : String) : ClusterCondition :=
  { Status := ConditionStatus.ConditionTrue, Type_ := ClusterConditionType.ClusterError,
    Message := msg, Reason := "ErrorReconcile", LastTransitionTime := now }

/-- The condition built when a replica set becomes ready. -/
def rsReadyCondition (now : Int) : ClusterCondition :=
  { Status := ConditionStatus.ConditionTrue, Type_ := ClusterConditionType.ClusterRSReady,
    Message := "", Reason := "", LastTransitionTime := now }

/-- The condition built when a replica set goes to the error state. -/
def rsErrorCondition (now : Int) (rsName msg : String) : ClusterCondition :=
  { Status := ConditionStatus.ConditionTrue, Type_ := ClusterConditionType.ClusterError,
    Message := rsName ++ ": " ++ msg, Reason := "ErrorRS", LastTransitionTime := now }

/-- The condition built by the final decision, of the given type. -/
def decisionCondition (now : Int) (t : ClusterConditionType) : ClusterCondition :=
  { Status := ConditionStatus.ConditionTrue, Type_ := t,
    Message := "", Reason := "", LastTransitionTime := now }

/-- The choice of `clusterCondition` inside `if status.Status != currentRSstatus.Status`:
the two `if`s in sequence, the second overriding the first. -/
def transitionCondition (now : Int) (rsName : String) (status : ReplsetStatus)
    (wasInitialized : Bool) (clusterCondition : ClusterCondition) : ClusterCondition :=
  let c1 :=
    if status.Status = AppState.AppStateReady ∧ wasInitialized = true then rsReadyCondition now
    else clusterCondition
  if status.Status = AppState.AppStateError then rsErrorCondition now rsName status.Message
  else c1

/-- The entry `currentRSstatus` found for a name: the stored one, or a fresh
`ReplsetStatus` when the name is not a key. -/
def currentOf (m : ReplsetMap) (name : String) : ReplsetStatus :=
  match mapGet m name with
  | some cur => cur
  | none => ReplsetStatus.zero

/-- The two assignments `status.Initialized = currentRSstatus.Initialized` and
`status.AddedAsShard = currentRSstatus.AddedAsShard`. -/
def carried (status0 cur : ReplsetStatus) : ReplsetStatus :=
  { status0 with Initialized := cur.Initialized, AddedAsShard := cur.AddedAsShard }

/-- First half of one turn of the loop `for _, rs := range repls`: from the
call of `rsStatus` to the assignment `cr.Status.Replsets[rs.Name] = &status`. -/
def evalReplset (env : Env) (cr : CR) (ls : LoopState) (rs : ReplsetSpec) : LoopResult :=
  let calls := ls.calls ++ [Call.listPods cr.Namespace cr.Name rs.Name]
  match rsStatus env rs cr.Name cr.Namespace with
  | Except.error err =>
    LoopResult.failed { ls with calls := calls } ("get replset " ++ rs.Name ++ " status: " ++ err)
  | Except.ok status0 =>
    let currentRSstatus := currentOf ls.Status.Replsets rs.Name
    let status := carried status0 currentRSstatus
    let replsetsReady :=
      if status.Status = AppState.AppStateReady then ls.replsetsReady + 1 else ls.replsetsReady
    let clusterCondition :=
      if status.Status ≠ currentRSstatus.Status then
        transitionCondition env.now rs.Name status currentRSstatus.Initialized ls.clusterCondition
      else ls.clusterCondition
    let conditions :=
      if status.Status ≠ currentRSstatus.Status then ls.Status.Conditions ++ [clusterCondition]
      else ls.Status.Conditions
    match mapSet ls.Status.Replsets rs.Name status with
    | none => LoopResult.panicked
    | some replsets =>
      LoopResult.finished
        { Status := { ls.Status with Conditions := conditions, Replsets := replsets },
          clusterCondition := clusterCondition, replsetsReady := replsetsReady,
          inProgress := ls.inProgress, calls := calls }

/-- Second half of one turn of the loop: the block `if !inProgress`. -/
def checkUpgrade (env : Env) (cr : CR) (ls : LoopState) (rs : ReplsetSpec) : LoopResult :=
  if ls.inProgress then LoopResult.finished ls
  else
    let calls := ls.calls ++ [Call.getStatefulSet cr.Namespace (cr.Name ++ "-" ++ rs.Name)]
    match upgradeInProgress env cr rs.Name with
    | Except.error err =>
      LoopResult.failed { ls with inProgress := false, calls := calls }
        ("set upgradeInProgres: " ++ err)
    | Except.ok b => LoopResult.finished { ls with inProgress := b, calls := calls }

/-- One turn of the loop `for _, rs := range repls` of `updateStatus`. -/
def replsetStep (env : Env) (cr : CR) (ls : LoopState) (rs : ReplsetSpec) : LoopResult :=
  match evalReplset env cr ls rs with
  | LoopResult.finished ls1 => checkUpgrade env cr ls1 rs
  | other => other

/-- The loop `for _, rs := range repls`: the first failure or panic ends it. -/
def replsetLoop (env : Env) (cr : CR) : List ReplsetSpec → LoopState → LoopResult
  | [], ls => LoopResult.finished ls
  | rs :: rest, ls =>
    match replsetStep env cr ls rs with
    | LoopResult.finished ls1 => replsetLoop env cr rest ls1
    | other => other

/-- The list `repls`: the replica sets of the spec, followed by the config
server replica set when sharding is enabled and it is set. -/
def replsOf (cr : CR) : List ReplsetSpec :=
  match cr.Spec.Sharding.ConfigsvrReplSet with
  | some cfg => if cr.Spec.Sharding.Enabled then cr.Spec.Replsets ++ [cfg] else cr.Spec.Replsets
  | none => cr.Spec.Replsets

/-- The three-way decision after the loop: the type of the condition and the
overall state. `none` is the panic of indexing the last element of an empty
history, which the second test does before it looks at the desired signal. -/
def decideState (conditions : List ClusterCondition) (replsetsReady nrepls : Nat)
    (clusterState : mongoClusterState) : Option (ClusterConditionType × AppState) :=
  if replsetsReady = nrepls ∧ clusterState = mongoClusterState.clusterReady then
    some (ClusterConditionType.ClusterReady, AppState.AppStateReady)
  else
    match conditions.getLast? with
    | none => none
    | some last =>
      if last.Type_ ≠ ClusterConditionType.ClusterReady ∧
          clusterState = mongoClusterState.clusterInit then
        some (ClusterConditionType.ClusterInit, AppState.AppStateInit)
      else
        some (ClusterConditionType.ClusterError, AppState.AppStateError)

/-- The final append: into an empty history always, otherwise only when the
type differs from the type of the last entry. -/
def appendCondition (conditions : List ClusterCondition) (c : ClusterCondition) :
    List ClusterCondition :=
  match conditions.getLast? with
  | none => conditions ++ [c]
  | some last => if last.Type_ ≠ c.Type_ then conditions ++ [c] else conditions

/-- The trim `Conditions[len(Conditions)-maxStatusesQuantity:]` of a history
longer than the bound. -/
def trimConditions (conditions : List ClusterCondition) : List ClusterCondition :=
  if conditions.length > maxStatusesQuantity then
    conditions.drop (conditions.length - maxStatusesQuantity)
  else conditions

/-- How a call of `updateStatus` ends: with a panic; with an error returned
before any write (`st` is `cr.Status` as left in memory); or with the result of
`writeStatus` on the status `st`. -/
inductive Outcome
  | panicked
  | aborted (st : Status) (err : String) (calls : List Call)
  | written (st : Status) (err : Option String) (calls : List Call)
  deriving DecidableEq

/-- The branch of `updateStatus` taken on a cycle error. -/
def updateStatusOnError (env : Env) (cr : CR) (msg : String) : Outcome :=
  let conditions :=
    if cr.Status.State ≠ AppState.AppStateError then
      cr.Status.Conditions ++ [reconcileErrorCondition env.now msg]
    else cr.Status.Conditions
  let st : Status :=
    { cr.Status with Conditions := conditions, Message := "Error: " ++ msg,
                     State := AppState.AppStateError }
  let w := writeStatus env st
  Outcome.written st w.1 w.2

/-- The part of `updateStatus` after the loop over the replica sets. -/
def updateStatusAfterLoop (env : Env) (cr : CR) (clusterState : mongoClusterState)
    (ls : LoopState) : Outcome :=
  match decideState ls.Status.Conditions ls.replsetsReady (replsOf cr).length clusterState with
  | none => Outcome.panicked
  | some (condType, state) =>
    let conditions :=
      trimConditions (appendCondition ls.Status.Conditions (decisionCondition env.now condType))
    let state := if ls.inProgress then AppState.AppStateInit else state
    match connectionEndpoint env cr with
    | EndpointResult.panicked _ => Outcome.panicked
    | EndpointResult.returned host _ ecalls =>
      let st : Status :=
        { ls.Status with State := state, Conditions := conditions,
                         ObservedGeneration := cr.Generation, Host := host }
      let w := writeStatus env st
      Outcome.written st w.1 (ls.calls ++ ecalls ++ w.2)

/-- The local variables when the loop over the replica sets starts, on a
cycle without error: the message is cleared, `clusterCondition` is the Init
condition, both counters are at their zero value. -/
def loopStart (env : Env) (cr : CR) : LoopState :=
  { Status := { cr.Status with Message := "" }, clusterCondition := initCondition env.now,
    replsetsReady := 0, inProgress := false, calls := [] }

/-- The function `updateStatus`. -/
def updateStatus (env : Env) (cr : CR) (reconcileErr : Option String)
    (clusterState : mongoClusterState) : Outcome :=
  match reconcileErr with
  | some msg => updateStatusOnError env cr msg
  | none =>
    match replsetLoop env cr (replsOf cr) (loopStart env cr) with
    | LoopResult.panicked => Outcome.panicked
    | LoopResult.failed ls err => Outcome.aborted ls.Status err ls.calls
    | LoopResult.finished ls => updateStatusAfterLoop env cr clusterState ls

/-! # Definitions used by the statements -/

/-- A condition that makes `rsStatus` take the error assignment. -/
def qualifies (now : Int) (c : PodCondition) : Bool :=
  decide (c.Type_ = PodConditionType.PodScheduled) && unschedulable now c

/-- A readiness condition that counts as ready. -/
def countsReady (c : PodCondition) : Bool :=
  decide (c.Type_ = PodConditionType.ContainersReady) &&
    decide (c.Status = ConditionStatus.ConditionTrue)

/-- Number of readiness conditions with status true over all listed pods. -/
def readyConditions (items : List Pod) : Nat :=
  (items.map (fun pod => pod.Conditions.countP countsReady)).sum

/-- The last qualifying condition of a list of conditions, if any. -/
def lastUnschedCond (now : Int) : List PodCondition → Option PodCondition
  | [] => none
  | c :: cs =>
    match lastUnschedCond now cs with
    | some d => some d
    | none => if qualifies now c then some c else none

/-- The last qualifying condition over all pods, in the order of the loops. -/
def lastUnschedulable (now : Int) : List Pod → Option PodCondition
  | [] => none
  | pod :: pods =>
    match lastUnschedulable now pods with
    | some d => some d
    | none => lastUnschedCond now pod.Conditions


/-- A cluster that answers every pod listing with `items` and every stateful
set lookup with `sfs`, has no load balancer ingress and accepts every write. -/
def constEnv (now : Int) (items : List Pod) (sfs : StatefulSetStatus) : Env :=
  { now := now
    listPods := fun _ _ _ => Except.ok items
    getStatefulSet := fun _ _ => Except.ok sfs
    getService := fun _ _ => Except.ok []
    getReplsetAddrs := fun _ _ => Except.ok []
    statusUpdate := fun _ => none
    update := fun _ => none }

/-- A scheduling condition that has been unschedulable since time 0. -/
def exUnschedCond : PodCondition :=
  { Type_ := PodConditionType.PodScheduled, Status := ConditionStatus.ConditionFalse,
    Reason := "Unschedulable", Message := "0/3 nodes are available",
    LastTransitionTime := 0 }

/-- A readiness condition with the given status. -/
def exReadyCond (s : ConditionStatus) : PodCondition :=
  { Type_ := PodConditionType.ContainersReady, Status := s, Reason := "", Message := "",
    LastTransitionTime := 0 }

/-- A pod that cannot be scheduled. -/
def exUnschedPod : Pod :=
  { Conditions := [exUnschedCond], ContainerStatuses := [] }

/-- A pod whose containers are ready. -/
def exReadyPod : Pod :=
  { Conditions := [exReadyCond ConditionStatus.ConditionTrue], ContainerStatuses := [] }

/-- A pod that waits for its image. -/
def exWaitingPod : Pod :=
  { Conditions := [exReadyCond ConditionStatus.ConditionFalse],
    ContainerStatuses := [{ Name := "mongod", Waiting := some "pulling image" }] }

/-- A replica set `rs0` of the given size, not exposed. -/
def exReplset (size : Int) : ReplsetSpec :=
  { Name := "rs0", Size := size,
    Expose := { Enabled := false, ExposeType := ServiceType.ClusterIP } }

/-- The clock of the examples: five minutes after time 0. -/
def exNow : Int := 5 * Minute

/-- Stateful set counters with every replica updated. -/
def exSfsDone : StatefulSetStatus := { Replicas := 3, UpdatedReplicas := 3 }

/-- The state computed this cycle for a replica set, `unset` when its pods
cannot be listed. -/
def groupState (env : Env) (cr : CR) (rs : ReplsetSpec) : AppState :=
  match env.listPods cr.Namespace cr.Name rs.Name with
  | Except.ok items => (rsStatusOf env.now rs items).Status
  | Except.error _ => AppState.unset

/-- Number of replica sets of a list whose computed state is Ready. -/
def readyGroups (env : Env) (cr : CR) (repls : List ReplsetSpec) : Nat :=
  repls.countP (fun rs => decide (groupState env cr rs = AppState.AppStateReady))

/-- The rollout detector answers true for a replica set: its stateful set is
found and has more replicas than updated replicas. -/
def rollout (env : Env) (cr : CR) (rs : ReplsetSpec) : Prop :=
  ∃ sfs, env.getStatefulSet cr.Namespace (cr.Name ++ "-" ++ rs.Name) = Except.ok sfs ∧
    sfs.Replicas > sfs.UpdatedReplicas

/-- The rollout detector answers false for a replica set: its stateful set is
found and has no more replicas than updated replicas. -/
def noRollout (env : Env) (cr : CR) (rs : ReplsetSpec) : Prop :=
  ∃ sfs, env.getStatefulSet cr.Namespace (cr.Name ++ "-" ++ rs.Name) = Except.ok sfs ∧
    sfs.Replicas ≤ sfs.UpdatedReplicas

/-- Type of the last condition of a history, if any. -/
def lastType (conditions : List ClusterCondition) : Option ClusterConditionType :=
  conditions.getLast?.map (fun c => c.Type_)

/-- No two adjacent conditions of a history have the same type. -/
def noAdjacentSameType : List ClusterCondition → Bool
  | a :: b :: rest => decide (a.Type_ ≠ b.Type_) && noAdjacentSameType (b :: rest)
  | _ => true

/-- The history when the decision is taken, after the additions made by the
loop over the replica sets (empty when the loop panics). -/
def conditionsAfterLoop (env : Env) (cr : CR) : List ClusterCondition :=
  match replsetLoop env cr (replsOf cr) (loopStart env cr) with
  | LoopResult.finished ls => ls.Status.Conditions
  | LoopResult.failed ls _ => ls.Status.Conditions
  | LoopResult.panicked => []

/-- A status with the given state, history and map, and nothing else set. -/
def exStatus (state : AppState) (conditions : List ClusterCondition) (m : ReplsetMap) : Status :=
  { State := state, Message := "", Conditions := conditions, Replsets := m, Host := "",
    ObservedGeneration := 0 }

/-- A cluster `c` in namespace `ns` without sharding, with the given replica
sets and status. -/
def exCR (repls : List ReplsetSpec) (st : Status) : CR :=
  { Name := "c", Namespace := "ns", Generation := 1,
    Spec :=
      { Replsets := repls,
        Sharding :=
          { Enabled := false, ConfigsvrReplSet := none,
            Mongos := { Expose := { Enabled := false, ExposeType := ServiceType.ClusterIP } } },
        ClusterServiceDNSSuffix := "svc.cluster.local" },
    Status := st }

/-- A condition of the given type recorded at time 0. -/
def exCondition (t : ClusterConditionType) : ClusterCondition :=
  { Status := ConditionStatus.ConditionTrue, Type_ := t, Message := "", Reason := "",
    LastTransitionTime := 0 }

/-- The stored status of a replica set of size 1 with its pod ready. -/
def exReadyEntry : ReplsetStatus :=
  { Size := 1, Ready := 1, Status := AppState.AppStateReady, Message := "",
    Initialized := true, AddedAsShard := false }

/-- Stateful set counters in the middle of a rolling update. -/
def exSfsRolling : StatefulSetStatus := { Replicas := 3, UpdatedReplicas := 2 }

/-- The cluster of the examples with one ready pod and no rolling update. -/
def exEnvReady : Env := constEnv exNow [exReadyPod] exSfsDone

/-- A cluster resource with one replica set of size 1 and a status that holds
an allocated, empty map and nothing else. -/
def exCRFresh : CR := exCR [exReplset 1] (exStatus AppState.unset [] (some []))

/-- The status written for `exCRFresh` in `exEnvReady` with the signal
`clusterReady`. -/
def exStatusReady : Status :=
  { State := AppState.AppStateReady, Message := "",
    Conditions :=
      [decisionCondition exNow ClusterConditionType.ClusterInit,
       decisionCondition exNow ClusterConditionType.ClusterReady],
    Replsets := some [("rs0", { exReadyEntry with Initialized := false })],
    Host := "c-rs0.ns.svc.cluster.local", ObservedGeneration := 1 }

/-- The status a call of `updateStatus` leaves in memory when it returns, with
or without the status write; nothing after a panic. -/
def statusLeft : Outcome → Option Status
  | Outcome.written st _ _ => some st
  | Outcome.aborted st _ _ => some st
  | Outcome.panicked => none

/-- A history of twenty conditions, Init and Ready in turn. -/
def exHistory20 : List ClusterCondition :=
  (List.range 20).map (fun i =>
    exCondition (if i % 2 = 0 then ClusterConditionType.ClusterInit
                 else ClusterConditionType.ClusterReady))

/-- A cluster resource in state Ready whose history is full. -/
def exCRFull : CR := exCR [exReplset 1] (exStatus AppState.AppStateReady exHistory20 (some []))

/-- A cluster resource in state Error after a failed cycle with the error `a`. -/
def exCRFailed : CR :=
  exCR [exReplset 1]
    (exStatus AppState.AppStateError [reconcileErrorCondition 0 "a"] (some []))

/-- The local variables at the end of the loop, or of one turn of it, when it
did not panic. -/
def loopStateOf : LoopResult → Option LoopState
  | LoopResult.finished ls => some ls
  | LoopResult.failed ls _ => some ls
  | LoopResult.panicked => none

/-- A cluster resource that has settled: state Ready, one Ready condition, and
the replica set `rs0` stored as ready. -/
def exCRSettled : CR :=
  exCR [exReplset 1]
    (exStatus AppState.AppStateReady [exCondition ClusterConditionType.ClusterReady]
      (some [("rs0", exReadyEntry)]))

/-- A cluster resource that starts: state Init, one Init condition, an empty
map, and a replica set of size 3. -/
def exCRStarting : CR :=
  exCR [exReplset 3]
    (exStatus AppState.AppStateInit [exCondition ClusterConditionType.ClusterInit] (some []))

/-- A cluster resource whose spec names the replica set `rs0` twice, with
sizes 1 and 2. -/
def exCRTwice : CR :=
  exCR [exReplset 1, exReplset 2] (exStatus AppState.unset [] (some []))

/-- A replica set `rs0` of size 1 exposed through a load balancer. -/
def exReplsetLB : ReplsetSpec :=
  { Name := "rs0", Size := 1,
    Expose := { Enabled := true, ExposeType := ServiceType.LoadBalancer } }

/-- The cluster of `exEnvReady` in which the addresses of the pods cannot be
resolved. -/
def exEnvNoAddrs : Env :=
  { exEnvReady with getReplsetAddrs := fun _ _ => Except.error "no address" }

/-- A cluster resource with the exposed replica set, settled, whose status
holds the host `old.example.com`. -/
def exCRHost : CR :=
  exCR [exReplsetLB]
    { State := AppState.AppStateReady, Message := "",
      Conditions := [exCondition ClusterConditionType.ClusterReady],
      Replsets := some [("rs0", exReadyEntry)], Host := "old.example.com",
      ObservedGeneration := 1 }

/-- A cluster resource whose replica set `rs0` is stored in state Init, not
initialized, with one Init condition in the history. -/
def exCRInitStored : CR :=
  exCR [exReplset 1]
    (exStatus AppState.AppStateInit [exCondition ClusterConditionType.ClusterInit]
      (some [("rs0", { exReadyEntry with Ready := 0, Status := AppState.AppStateInit,
                                         Initialized := false })]))

/-- A call that reads from the cluster: a pod listing or a stateful set lookup. -/
def isQuery : Call → Bool
  | Call.listPods _ _ _ => true
  | Call.getStatefulSet _ _ => true
  | _ => false

/-- The cluster of `exEnvReady` in which no stateful set is found. -/
def exEnvNoSfs : Env :=
  { exEnvReady with getStatefulSet := fun _ _ => Except.error "not found" }

/-- The history of a cycle without error after all its additions and before
the trim: the history left by the loop with the condition of the decision
added by the final append (empty when the cycle does not get that far). -/
def historyBeforeTrim (env : Env) (cr : CR) (clusterState : mongoClusterState) :
    List ClusterCondition :=
  match replsetLoop env cr (replsOf cr) (loopStart env cr) with
  | LoopResult.finished ls =>
    match decideState ls.Status.Conditions ls.replsetsReady (replsOf cr).length clusterState with
    | some (condType, _) =>
      appendCondition ls.Status.Conditions (decisionCondition env.now condType)
    | none => []
  | _ => []

/-- The cluster at the time `i` of the scenario of alternating cycles: no pod
is listed and no rollout is under way. -/
def exEnvAt (i : Nat) : Env := constEnv (i : Int) [] exSfsDone

/-- The desired signal of cycle `i` of the scenario: `clusterInit` on odd
cycles, `clusterError` on even ones. -/
def exSignalAt (i : Nat) : mongoClusterState :=
  if i % 2 = 1 then mongoClusterState.clusterInit else mongoClusterState.clusterError

/-- One cycle of the scenario: the status written becomes the status of the
resource; a cycle that does not reach the write leaves nothing. -/
def exCycle (cr : Option CR) (i : Nat) : Option CR :=
  match cr with
  | none => none
  | some c =>
    match updateStatus (exEnvAt i) c none (exSignalAt i) with
    | Outcome.written st _ _ => some { c with Status := st }
    | _ => none

/-- The cycles `1 .. n` of the scenario, run in turn from an empty status with
one replica set of size 3. -/
def exCycles (n : Nat) : Option CR :=
  (List.range' 1 n).foldl exCycle (some (exCR [exReplset 3] (exStatus AppState.unset [] (some []))))

/-- Type and time of the conditions of a resource, oldest first. -/
def exTrail (cr : Option CR) : List (ClusterConditionType × Int) :=
  match cr with
  | none => []
  | some c => c.Status.Conditions.map (fun x => (x.Type_, x.LastTransitionTime))

/-- A cluster resource with an empty history whose replica set `rs0`, of size
3, is already stored in state Init. -/
def exCRNoHistory : CR :=
  exCR [exReplset 3]
    (exStatus AppState.AppStateInit []
      (some [("rs0", { Size := 3, Ready := 0, Status := AppState.AppStateInit, Message := "",
                       Initialized := false, AddedAsShard := false })]))

/-- A cluster resource with sharding enabled, no replica set at all and an
empty status. -/
def exCRNoGroups : CR :=
  { Name := "c", Namespace := "ns", Generation := 1,
    Spec :=
      { Replsets := [],
        Sharding :=
          { Enabled := true, ConfigsvrReplSet := none,
            Mongos := { Expose := { Enabled := false, ExposeType := ServiceType.ClusterIP } } },
        ClusterServiceDNSSuffix := "svc.cluster.local" },
    Status := exStatus AppState.unset [] (some []) }

/-- The resource after the first 24 cycles of the scenario. -/
def exCRAfter24 : CR :=
  match exCycles 24 with
  | some c => c
  | none => exCR [exReplset 3] (exStatus AppState.unset [] (some []))

/-- The status after the 25 cycles of the scenario. -/
def exStatusAfter25 : Status :=
  match exCycles 25 with
  | some c => c.Status
  | none => exCRAfter24.Status

/-- A config server replica set `cfg` of size 1, not exposed. -/
def exConfigsvr : ReplsetSpec :=
  { Name := "cfg", Size := 1,
    Expose := { Enabled := false, ExposeType := ServiceType.ClusterIP } }

/-- A cluster resource with sharding enabled: the replica set `rs0` of size 1,
the config server replica set `cfg`, the routing tier not exposed, and a
status that holds an allocated, empty map and nothing else. -/
def exCRSharded : CR :=
  { Name := "c", Namespace := "ns", Generation := 1,
    Spec :=
      { Replsets := [exReplset 1],
        Sharding :=
          { Enabled := true, ConfigsvrReplSet := some exConfigsvr,
            Mongos := { Expose := { Enabled := false, ExposeType := ServiceType.ClusterIP } } },
        ClusterServiceDNSSuffix := "svc.cluster.local" },
    Status := exStatus AppState.unset [] (some []) }

/-! # Theorems -/

theorem waitingMessages_append (cntrs : List ContainerStatus) (msg : String) :
    ∃ rest, waitingMessages cntrs msg = msg ++ rest := by
  unfold waitingMessages
  induction cntrs generalizing msg with
  | nil => exact ⟨"", by simp⟩
  | cons cntr cs ih =>
    simp only [List.foldl_cons]
    cases hw : cntr.Waiting with
    | none => simpa using ih msg
    | some w =>
      by_cases hne : w = ""
      · simpa [hne] using ih msg
      · obtain ⟨r, hr⟩ := ih (msg ++ (cntr.Name ++ ": " ++ w ++ "; "))
        refine ⟨(cntr.Name ++ ": " ++ w ++ "; ") ++ r, ?_⟩
        simp only [hne, ite_not, if_false] at hr ⊢
        rw [hr, String.append_assoc]

theorem condStep_Size (now : Int) (pod : Pod) (st : ReplsetStatus) (c : PodCondition) :
    (condStep now pod st c).Size = st.Size ∧
    (condStep now pod st c).Initialized = st.Initialized ∧
    (condStep now pod st c).AddedAsShard = st.AddedAsShard := by
  unfold condStep
  cases c.Type_ <;> simp <;> split_ifs <;> simp

theorem condStep_Ready (now : Int) (pod : Pod) (st : ReplsetStatus) (c : PodCondition) :
    (condStep now pod st c).Ready = st.Ready + (if countsReady c then 1 else 0) := by
  unfold condStep countsReady
  cases c.Type_ <;> simp <;> split_ifs <;> simp_all

theorem condStep_Status (now : Int) (pod : Pod) (st : ReplsetStatus) (c : PodCondition) :
    (condStep now pod st c).Status =
      if qualifies now c then AppState.AppStateError else st.Status := by
  unfold condStep qualifies
  cases c.Type_ <;> simp <;> split_ifs <;> simp_all

theorem condStep_Message (now : Int) (pod : Pod) (st : ReplsetStatus) (c : PodCondition) :
    if qualifies now c then (condStep now pod st c).Message = c.Message
    else ∃ rest, (condStep now pod st c).Message = st.Message ++ rest := by
  unfold condStep qualifies
  cases hT : c.Type_ <;> simp
  · split_ifs
    · exact ⟨"", by simp⟩
    · exact waitingMessages_append _ _
    · exact ⟨"", by simp⟩
  · exact ⟨"", by simp⟩
  · exact ⟨"", by simp⟩
  · split_ifs <;> simp_all
    exact ⟨"", by simp⟩

theorem lastUnschedCond_cons_some (now : Int) (c d : PodCondition) (cs : List PodCondition)
    (h : lastUnschedCond now cs = some d) : lastUnschedCond now (c :: cs) = some d := by
  simp [lastUnschedCond, h]

theorem lastUnschedCond_cons_none (now : Int) (c : PodCondition) (cs : List PodCondition)
    (h : lastUnschedCond now cs = none) :
    lastUnschedCond now (c :: cs) = if qualifies now c then some c else none := by
  simp [lastUnschedCond, h]

theorem lastUnschedulable_cons_some (now : Int) (pod : Pod) (d : PodCondition) (pods : List Pod)
    (h : lastUnschedulable now pods = some d) : lastUnschedulable now (pod :: pods) = some d := by
  simp [lastUnschedulable, h]

theorem lastUnschedulable_cons_none (now : Int) (pod : Pod) (pods : List Pod)
    (h : lastUnschedulable now pods = none) :
    lastUnschedulable now (pod :: pods) = lastUnschedCond now pod.Conditions := by
  simp [lastUnschedulable, h]

theorem podStep_frame (now : Int) (pod : Pod) (cs : List PodCondition) (st : ReplsetStatus) :
    (cs.foldl (condStep now pod) st).Size = st.Size ∧
    (cs.foldl (condStep now pod) st).Initialized = st.Initialized ∧
    (cs.foldl (condStep now pod) st).AddedAsShard = st.AddedAsShard ∧
    (cs.foldl (condStep now pod) st).Ready = st.Ready + (cs.countP countsReady : Nat) := by
  induction cs generalizing st with
  | nil => simp
  | cons c cs ih =>
    obtain ⟨h1, h2, h3, h4⟩ := ih (condStep now pod st c)
    obtain ⟨g1, g2, g3⟩ := condStep_Size now pod st c
    have g4 := condStep_Ready now pod st c
    simp only [List.foldl_cons, List.countP_cons]
    refine ⟨by rw [h1, g1], by rw [h2, g2], by rw [h3, g3], ?_⟩
    rw [h4, g4]
    split_ifs <;> push_cast <;> ring

theorem podStep_Status (now : Int) (pod : Pod) (cs : List PodCondition) (st : ReplsetStatus) :
    (cs.foldl (condStep now pod) st).Status =
      if (lastUnschedCond now cs).isSome then AppState.AppStateError else st.Status := by
  induction cs generalizing st with
  | nil => simp [lastUnschedCond]
  | cons c cs ih =>
    simp only [List.foldl_cons]
    rw [ih, condStep_Status]
    cases hl : lastUnschedCond now cs with
    | some d => simp [lastUnschedCond_cons_some now c d cs hl]
    | none =>
      rw [lastUnschedCond_cons_none now c cs hl]
      cases hq : qualifies now c <;> simp

theorem podStep_Message (now : Int) (pod : Pod) (cs : List PodCondition) (st : ReplsetStatus) :
    ∃ rest, (cs.foldl (condStep now pod) st).Message =
      (match lastUnschedCond now cs with
       | some d => d.Message
       | none => st.Message) ++ rest := by
  induction cs generalizing st with
  | nil => exact ⟨"", by simp [lastUnschedCond]⟩
  | cons c cs ih =>
    simp only [List.foldl_cons]
    obtain ⟨r, hr⟩ := ih (condStep now pod st c)
    have hm := condStep_Message now pod st c
    cases hl : lastUnschedCond now cs with
    | some d =>
      rw [lastUnschedCond_cons_some now c d cs hl]
      exact ⟨r, by simpa [hl] using hr⟩
    | none =>
      rw [lastUnschedCond_cons_none now c cs hl]
      rw [hl] at hr
      simp only at hr
      cases hq : qualifies now c with
      | true =>
        simp only [hq, if_true] at hm
        exact ⟨r, by simpa [hm] using hr⟩
      | false =>
        simp only [hq] at hm
        obtain ⟨r2, hr2⟩ := hm
        refine ⟨r2 ++ r, ?_⟩
        simp [hr, hr2, String.append_assoc]

theorem items_frame (now : Int) (items : List Pod) (st : ReplsetStatus) :
    (items.foldl (podStep now) st).Size = st.Size ∧
    (items.foldl (podStep now) st).Initialized = st.Initialized ∧
    (items.foldl (podStep now) st).AddedAsShard = st.AddedAsShard ∧
    (items.foldl (podStep now) st).Ready = st.Ready + (readyConditions items : Nat) := by
  induction items generalizing st with
  | nil => simp [readyConditions]
  | cons pod pods ih =>
    obtain ⟨h1, h2, h3, h4⟩ := ih (podStep now st pod)
    obtain ⟨g1, g2, g3, g4⟩ := podStep_frame now pod pod.Conditions st
    simp only [List.foldl_cons]
    refine ⟨by rw [h1]; exact g1, by rw [h2]; exact g2, by rw [h3]; exact g3, ?_⟩
    rw [h4]
    unfold podStep
    rw [g4]
    simp only [readyConditions, List.map_cons, List.sum_cons]
    push_cast
    ring

theorem items_Status (now : Int) (items : List Pod) (st : ReplsetStatus) :
    (items.foldl (podStep now) st).Status =
      if (lastUnschedulable now items).isSome then AppState.AppStateError else st.Status := by
  induction items generalizing st with
  | nil => simp [lastUnschedulable]
  | cons pod pods ih =>
    simp only [List.foldl_cons]
    rw [ih]
    unfold podStep
    rw [podStep_Status]
    cases hl : lastUnschedulable now pods with
    | some d => simp [lastUnschedulable_cons_some now pod d pods hl]
    | none =>
      rw [lastUnschedulable_cons_none now pod pods hl]
      cases hq : lastUnschedCond now pod.Conditions <;> simp

theorem items_Message (now : Int) (items : List Pod) (st : ReplsetStatus) :
    ∃ rest, (items.foldl (podStep now) st).Message =
      (match lastUnschedulable now items with
       | some d => d.Message
       | none => st.Message) ++ rest := by
  induction items generalizing st with
  | nil => exact ⟨"", by simp [lastUnschedulable]⟩
  | cons pod pods ih =>
    simp only [List.foldl_cons]
    obtain ⟨r, hr⟩ := ih (podStep now st pod)
    obtain ⟨r2, hr2⟩ := podStep_Message now pod pod.Conditions st
    cases hl : lastUnschedulable now pods with
    | some d =>
      rw [lastUnschedulable_cons_some now pod d pods hl]
      exact ⟨r, by simpa [hl] using hr⟩
    | none =>
      rw [lastUnschedulable_cons_none now pod pods hl]
      rw [hl] at hr
      simp only at hr
      have hp : (podStep now st pod).Message =
          (match lastUnschedCond now pod.Conditions with
            | some d => d.Message
            | none => st.Message) ++ r2 := hr2
      rw [hp] at hr
      refine ⟨r2 ++ r, ?_⟩
      rw [hr, String.append_assoc]

/-- No qualifying condition anywhere iff there is no last one. -/
theorem lastUnschedCond_none (now : Int) (cs : List PodCondition) :
    lastUnschedCond now cs = none ↔ ∀ c ∈ cs, qualifies now c = false := by
  induction cs with
  | nil => simp [lastUnschedCond]
  | cons c cs ih =>
    simp only [List.mem_cons, forall_eq_or_imp]
    cases hl : lastUnschedCond now cs with
    | some d =>
      rw [lastUnschedCond_cons_some now c d cs hl]
      simp only [false_iff, not_and, reduceCtorEq]
      intro _ hall
      exact absurd (ih.mpr hall) (by simp [hl])
    | none =>
      rw [lastUnschedCond_cons_none now c cs hl]
      have := ih.mp hl
      cases hq : qualifies now c <;> simp [this]
      exact this

theorem lastUnschedulable_none (now : Int) (items : List Pod) :
    lastUnschedulable now items = none ↔
      ∀ pod ∈ items, ∀ c ∈ pod.Conditions, qualifies now c = false := by
  induction items with
  | nil => simp [lastUnschedulable]
  | cons pod pods ih =>
    simp only [List.mem_cons, forall_eq_or_imp]
    cases hl : lastUnschedulable now pods with
    | some d =>
      rw [lastUnschedulable_cons_some now pod d pods hl]
      simp only [false_iff, not_and, reduceCtorEq]
      intro _ hall
      exact absurd (ih.mpr hall) (by simp [hl])
    | none =>
      rw [lastUnschedulable_cons_none now pod pods hl]
      have := ih.mp hl
      simp only [lastUnschedCond_none]
      exact ⟨fun h => ⟨h, this⟩, fun h => h.1⟩

/-- The last qualifying condition is a qualifying condition of some listed pod. -/
theorem lastUnschedCond_mem (now : Int) (cs : List PodCondition) (d : PodCondition)
    (h : lastUnschedCond now cs = some d) : d ∈ cs ∧ qualifies now d = true := by
  induction cs with
  | nil => simp [lastUnschedCond] at h
  | cons c cs ih =>
    cases hl : lastUnschedCond now cs with
    | some e =>
      rw [lastUnschedCond_cons_some now c e cs hl] at h
      simp only [Option.some.injEq] at h
      subst h
      exact ⟨List.mem_cons_of_mem _ (ih hl).1, (ih hl).2⟩
    | none =>
      rw [lastUnschedCond_cons_none now c cs hl] at h
      split_ifs at h with hq
      simp only [Option.some.injEq] at h
      subst h
      exact ⟨List.mem_cons_self _ _, hq⟩

theorem lastUnschedulable_mem (now : Int) (items : List Pod) (d : PodCondition)
    (h : lastUnschedulable now items = some d) :
    ∃ pod ∈ items, d ∈ pod.Conditions ∧ qualifies now d = true := by
  induction items with
  | nil => simp [lastUnschedulable] at h
  | cons pod pods ih =>
    cases hl : lastUnschedulable now pods with
    | some e =>
      rw [lastUnschedulable_cons_some now pod e pods hl] at h
      simp only [Option.some.injEq] at h
      subst h
      obtain ⟨p, hp, hd⟩ := ih hl
      exact ⟨p, List.mem_cons_of_mem _ hp, hd⟩
    | none =>
      rw [lastUnschedulable_cons_none now pod pods hl] at h
      exact ⟨pod, List.mem_cons_self _ _, lastUnschedCond_mem now _ d h⟩

theorem rsStatusOf_fields (now : Int) (rsSpec : ReplsetSpec) (items : List Pod) :
    (rsStatusOf now rsSpec items).Size = rsSpec.Size ∧
    (rsStatusOf now rsSpec items).Ready = (readyConditions items : Int) ∧
    (rsStatusOf now rsSpec items).Initialized = false ∧
    (rsStatusOf now rsSpec items).AddedAsShard = false ∧
    (rsStatusOf now rsSpec items).Status =
      (if rsSpec.Size = (readyConditions items : Int) then AppState.AppStateReady
       else if (lastUnschedulable now items).isSome then AppState.AppStateError
       else AppState.AppStateInit) ∧
    ∃ rest, (rsStatusOf now rsSpec items).Message =
      (match lastUnschedulable now items with
       | some d => d.Message
       | none => "") ++ rest := by
  have hdef : rsStatusOf now rsSpec items =
      (if (items.foldl (podStep now)
            { Size := rsSpec.Size, Ready := 0, Status := AppState.AppStateInit, Message := "",
              Initialized := false, AddedAsShard := false }).Size =
          (items.foldl (podStep now)
            { Size := rsSpec.Size, Ready := 0, Status := AppState.AppStateInit, Message := "",
              Initialized := false, AddedAsShard := false }).Ready
       then { (items.foldl (podStep now)
            { Size := rsSpec.Size, Ready := 0, Status := AppState.AppStateInit, Message := "",
              Initialized := false, AddedAsShard := false }) with Status := AppState.AppStateReady }
       else items.foldl (podStep now)
            { Size := rsSpec.Size, Ready := 0, Status := AppState.AppStateInit, Message := "",
              Initialized := false, AddedAsShard := false }) := rfl
  generalize hst : items.foldl (podStep now)
      { Size := rsSpec.Size, Ready := 0, Status := AppState.AppStateInit, Message := "",
        Initialized := false, AddedAsShard := false } = st at hdef
  obtain ⟨h1, h2, h3, h4⟩ := items_frame now items
    { Size := rsSpec.Size, Ready := 0, Status := AppState.AppStateInit, Message := "",
      Initialized := false, AddedAsShard := false }
  have h5 := items_Status now items
    { Size := rsSpec.Size, Ready := 0, Status := AppState.AppStateInit, Message := "",
      Initialized := false, AddedAsShard := false }
  obtain ⟨r, h6⟩ := items_Message now items
    { Size := rsSpec.Size, Ready := 0, Status := AppState.AppStateInit, Message := "",
      Initialized := false, AddedAsShard := false }
  rw [hst] at h1 h2 h3 h4 h5 h6
  simp only [zero_add] at h1 h2 h3 h4 h5 h6
  rw [hdef]
  by_cases hsz : rsSpec.Size = (readyConditions items : Int)
  · have heq : st.Size = st.Ready := by rw [h1, h4]; exact hsz
    rw [if_pos heq, if_pos hsz]
    exact ⟨h1, h4, h2, h3, rfl, r, h6⟩
  · have hne : ¬ st.Size = st.Ready := by rw [h1, h4]; exact hsz
    rw [if_neg hne, if_neg hsz]
    exact ⟨h1, h4, h2, h3, h5, r, h6⟩

/-- C8: when no listed pod has a scheduling condition with reason Unschedulable
older than one minute, `rsStatus` returns a ready count equal to the number of
readiness conditions with status true over all listed pods, a size equal to
the size of the spec, and state Ready exactly when the two are equal, state
Init otherwise. -/
theorem rsStatus_ready_iff_count (env : Env) (rsSpec : ReplsetSpec) (clusterName ns : String)
    (items : List Pod)
    (hlist : env.listPods ns clusterName rsSpec.Name = Except.ok items)
    (hno : ∀ pod ∈ items, ∀ c ∈ pod.Conditions, qualifies env.now c = false) :
    ∃ st, rsStatus env rsSpec clusterName ns = Except.ok st ∧
      st.Ready = (readyConditions items : Int) ∧ st.Size = rsSpec.Size ∧
      (st.Status = AppState.AppStateReady ↔ st.Ready = st.Size) ∧
      (st.Ready ≠ st.Size → st.Status = AppState.AppStateInit) := by
  refine ⟨rsStatusOf env.now rsSpec items, by simp [rsStatus, hlist], ?_⟩
  obtain ⟨h1, h2, _, _, h5, _⟩ := rsStatusOf_fields env.now rsSpec items
  have hnone := (lastUnschedulable_none env.now items).mpr hno
  rw [hnone] at h5
  refine ⟨h2, h1, ?_, ?_⟩
  · rw [h5, h1, h2]
    by_cases hsz : rsSpec.Size = (readyConditions items : Int)
    · simp [hsz]
    · simp [hsz, Ne.symm hsz]
  · intro hne
    rw [h1, h2] at hne
    rw [h5]
    simp [Ne.symm hne]

theorem rsStatus_ready_iff_count_witness :
    ∃ st, rsStatus (constEnv exNow [exReadyPod, exWaitingPod] exSfsDone) (exReplset 3) "c" "ns"
        = Except.ok st ∧
      st.Ready = (readyConditions [exReadyPod, exWaitingPod] : Int) ∧ st.Size = (exReplset 3).Size ∧
      (st.Status = AppState.AppStateReady ↔ st.Ready = st.Size) ∧
      (st.Ready ≠ st.Size → st.Status = AppState.AppStateInit) :=
  rsStatus_ready_iff_count (constEnv exNow [exReadyPod, exWaitingPod] exSfsDone) (exReplset 3)
    "c" "ns" [exReadyPod, exWaitingPod] rfl (by decide)

/-- C7 (as amended): when some listed pod has a scheduling condition with
reason Unschedulable older than one minute, and `d` is the last such condition
in the order of the loops, `rsStatus` returns state Error unless the ready
count equals the size of the spec, in which case the state is Ready; the
message starts with the message of `d` (waiting messages collected after `d`
follow it). -/
theorem rsStatus_unschedulable (env : Env) (rsSpec : ReplsetSpec) (clusterName ns : String)
    (items : List Pod) (d : PodCondition)
    (hlist : env.listPods ns clusterName rsSpec.Name = Except.ok items)
    (hlast : lastUnschedulable env.now items = some d) :
    ∃ st, rsStatus env rsSpec clusterName ns = Except.ok st ∧
      st.Status = (if rsSpec.Size = (readyConditions items : Int) then AppState.AppStateReady
                   else AppState.AppStateError) ∧
      ∃ rest, st.Message = d.Message ++ rest := by
  refine ⟨rsStatusOf env.now rsSpec items, by simp [rsStatus, hlist], ?_⟩
  obtain ⟨_, _, _, _, h5, r, h6⟩ := rsStatusOf_fields env.now rsSpec items
  rw [hlast] at h5 h6
  exact ⟨by simpa using h5, r, h6⟩

theorem rsStatus_unschedulable_witness :
    ∃ st, rsStatus (constEnv exNow [exUnschedPod, exWaitingPod] exSfsDone) (exReplset 3) "c" "ns"
        = Except.ok st ∧
      st.Status = (if (exReplset 3).Size = (readyConditions [exUnschedPod, exWaitingPod] : Int)
                   then AppState.AppStateReady else AppState.AppStateError) ∧
      ∃ rest, st.Message = exUnschedCond.Message ++ rest :=
  rsStatus_unschedulable (constEnv exNow [exUnschedPod, exWaitingPod] exSfsDone) (exReplset 3)
    "c" "ns" [exUnschedPod, exWaitingPod] exUnschedCond rfl (by decide)

/-- C7 (counterexample): the pod `exUnschedPod` has been unschedulable for five
minutes, yet for a replica set of size 0 `rsStatus` returns state Ready; and
with a waiting pod listed after it the message is not the message of the
scheduling condition. -/
theorem rsStatus_unschedulable_counterexample :
    qualifies exNow exUnschedCond = true ∧ exUnschedCond ∈ exUnschedPod.Conditions ∧
    rsStatus (constEnv exNow [exUnschedPod] exSfsDone) (exReplset 0) "c" "ns" =
      Except.ok { Size := 0, Ready := 0, Status := AppState.AppStateReady,
                  Message := "0/3 nodes are available", Initialized := false,
                  AddedAsShard := false } ∧
    rsStatus (constEnv exNow [exUnschedPod, exWaitingPod] exSfsDone) (exReplset 3) "c" "ns" =
      Except.ok { Size := 3, Ready := 0, Status := AppState.AppStateError,
                  Message := "0/3 nodes are availablemongod: pulling image; ",
                  Initialized := false, AddedAsShard := false } := by
  refine ⟨by decide, by decide, rfl, rfl⟩

/-! ## One turn of the loop -/

theorem evalReplset_eq (env : Env) (cr : CR) (ls : LoopState) (rs : ReplsetSpec)
    (items : List Pod) (kvs : List (String × ReplsetStatus))
    (hlist : env.listPods cr.Namespace cr.Name rs.Name = Except.ok items)
    (hmap : ls.Status.Replsets = some kvs) :
    evalReplset env cr ls rs = LoopResult.finished
      { Status :=
          { ls.Status with
            Conditions :=
              if (rsStatusOf env.now rs items).Status ≠ (currentOf (some kvs) rs.Name).Status then
                ls.Status.Conditions ++
                  [transitionCondition env.now rs.Name
                    (carried (rsStatusOf env.now rs items) (currentOf (some kvs) rs.Name))
                    (currentOf (some kvs) rs.Name).Initialized ls.clusterCondition]
              else ls.Status.Conditions
            Replsets := some (kvSet kvs rs.Name
              (carried (rsStatusOf env.now rs items) (currentOf (some kvs) rs.Name))) }
        clusterCondition :=
          if (rsStatusOf env.now rs items).Status ≠ (currentOf (some kvs) rs.Name).Status then
            transitionCondition env.now rs.Name
              (carried (rsStatusOf env.now rs items) (currentOf (some kvs) rs.Name))
              (currentOf (some kvs) rs.Name).Initialized ls.clusterCondition
          else ls.clusterCondition
        replsetsReady :=
          if (rsStatusOf env.now rs items).Status = AppState.AppStateReady then
            ls.replsetsReady + 1
          else ls.replsetsReady
        inProgress := ls.inProgress
        calls := ls.calls ++ [Call.listPods cr.Namespace cr.Name rs.Name] } := by
  simp only [evalReplset, rsStatus, hlist, hmap, mapSet, carried]
  split_ifs <;> rfl

theorem evalReplset_finished_inv (env : Env) (cr : CR) (ls ls1 : LoopState) (rs : ReplsetSpec)
    (h : evalReplset env cr ls rs = LoopResult.finished ls1) :
    ∃ items kvs, env.listPods cr.Namespace cr.Name rs.Name = Except.ok items ∧
      ls.Status.Replsets = some kvs := by
  cases hl : env.listPods cr.Namespace cr.Name rs.Name with
  | error e => simp [evalReplset, rsStatus, hl] at h
  | ok items =>
    cases hm : ls.Status.Replsets with
    | none => simp [evalReplset, rsStatus, hl, hm, mapSet] at h
    | some kvs => exact ⟨items, kvs, rfl, rfl⟩

theorem checkUpgrade_finished (env : Env) (cr : CR) (ls ls1 : LoopState) (rs : ReplsetSpec)
    (h : checkUpgrade env cr ls rs = LoopResult.finished ls1) :
    ls1.Status = ls.Status ∧ ls1.clusterCondition = ls.clusterCondition ∧
    ls1.replsetsReady = ls.replsetsReady ∧
    (ls.inProgress = true → ls1.inProgress = true) ∧
    (ls.inProgress = false →
      ∃ sfs, env.getStatefulSet cr.Namespace (cr.Name ++ "-" ++ rs.Name) = Except.ok sfs ∧
        ls1.inProgress = decide (sfs.Replicas > sfs.UpdatedReplicas)) := by
  unfold checkUpgrade at h
  cases hp : ls.inProgress with
  | true =>
    simp only [hp, if_true, LoopResult.finished.injEq] at h
    subst h
    simp [hp]
  | false =>
    simp only [hp, Bool.false_eq_true, if_false, upgradeInProgress] at h
    cases hs : env.getStatefulSet cr.Namespace (cr.Name ++ "-" ++ rs.Name) with
    | error e => simp [hs] at h
    | ok sfs =>
      simp only [hs, LoopResult.finished.injEq] at h
      subst h
      simp

theorem replsetStep_finished (env : Env) (cr : CR) (ls ls2 : LoopState) (rs : ReplsetSpec)
    (h : replsetStep env cr ls rs = LoopResult.finished ls2) :
    ∃ ls1, evalReplset env cr ls rs = LoopResult.finished ls1 ∧
      checkUpgrade env cr ls1 rs = LoopResult.finished ls2 := by
  unfold replsetStep at h
  cases he : evalReplset env cr ls rs with
  | panicked => simp [he] at h
  | failed l e => simp [he] at h
  | finished ls1 => exact ⟨ls1, rfl, by simpa [he] using h⟩

theorem replsetLoop_cons_finished (env : Env) (cr : CR) (rs : ReplsetSpec)
    (rest : List ReplsetSpec) (ls ls3 : LoopState)
    (h : replsetLoop env cr (rs :: rest) ls = LoopResult.finished ls3) :
    ∃ ls2, replsetStep env cr ls rs = LoopResult.finished ls2 ∧
      replsetLoop env cr rest ls2 = LoopResult.finished ls3 := by
  unfold replsetLoop at h
  cases hs : replsetStep env cr ls rs with
  | panicked => simp [hs] at h
  | failed l e => simp [hs] at h
  | finished ls2 => exact ⟨ls2, rfl, by simpa [hs] using h⟩

/-! ## The map of replica set statuses -/

theorem kvGet_kvSet (kvs : List (String × ReplsetStatus)) (k k2 : String) (v : ReplsetStatus) :
    kvGet (kvSet kvs k v) k2 = if k = k2 then some v else kvGet kvs k2 := by
  induction kvs with
  | nil => simp [kvSet, kvGet]
  | cons kv rest ih =>
    obtain ⟨k0, v0⟩ := kv
    by_cases h0 : k0 = k
    · subst h0
      by_cases h2 : k0 = k2 <;> simp [kvSet, kvGet, h2]
    · by_cases h2 : k0 = k2
      · subst h2
        simp [kvSet, kvGet, h0, ih, Ne.symm h0]
      · simp [kvSet, kvGet, h0, h2, ih]

theorem kvSet_same (kvs : List (String × ReplsetStatus)) (k : String) (v : ReplsetStatus)
    (h : kvGet kvs k = some v) : kvSet kvs k v = kvs := by
  induction kvs with
  | nil => simp [kvGet] at h
  | cons kv rest ih =>
    obtain ⟨k0, v0⟩ := kv
    by_cases h0 : k0 = k
    · simp only [kvGet, h0, if_true, Option.some.injEq] at h
      simp [kvSet, h0, h]
    · simp only [kvGet, h0, if_false] at h
      simp [kvSet, h0, ih h]

theorem currentOf_kvSet (kvs : List (String × ReplsetStatus)) (k k2 : String)
    (v : ReplsetStatus) :
    currentOf (some (kvSet kvs k v)) k2 = if k = k2 then v else currentOf (some kvs) k2 := by
  simp only [currentOf, mapGet, kvGet_kvSet]
  by_cases h : k = k2 <;> simp [h]

theorem carried_Status (s cur : ReplsetStatus) : (carried s cur).Status = s.Status := rfl

theorem carried_Initialized (s cur : ReplsetStatus) :
    (carried s cur).Initialized = cur.Initialized := rfl

theorem carried_AddedAsShard (s cur : ReplsetStatus) :
    (carried s cur).AddedAsShard = cur.AddedAsShard := rfl

theorem carried_carried (s cur : ReplsetStatus) : carried s (carried s cur) = carried s cur := rfl

/-- What a finished turn of the loop did, field by field. -/
theorem replsetStep_facts (env : Env) (cr : CR) (ls ls2 : LoopState) (rs : ReplsetSpec)
    (h : replsetStep env cr ls rs = LoopResult.finished ls2) :
    ∃ items kvs, env.listPods cr.Namespace cr.Name rs.Name = Except.ok items ∧
      ls.Status.Replsets = some kvs ∧
      ls2.Status.Replsets = some (kvSet kvs rs.Name
        (carried (rsStatusOf env.now rs items) (currentOf (some kvs) rs.Name))) ∧
      ls2.Status.Conditions =
        (if (rsStatusOf env.now rs items).Status ≠ (currentOf (some kvs) rs.Name).Status then
          ls.Status.Conditions ++
            [transitionCondition env.now rs.Name
              (carried (rsStatusOf env.now rs items) (currentOf (some kvs) rs.Name))
              (currentOf (some kvs) rs.Name).Initialized ls.clusterCondition]
        else ls.Status.Conditions) ∧
      ls2.clusterCondition =
        (if (rsStatusOf env.now rs items).Status ≠ (currentOf (some kvs) rs.Name).Status then
          transitionCondition env.now rs.Name
            (carried (rsStatusOf env.now rs items) (currentOf (some kvs) rs.Name))
            (currentOf (some kvs) rs.Name).Initialized ls.clusterCondition
        else ls.clusterCondition) ∧
      ls2.replsetsReady =
        (if (rsStatusOf env.now rs items).Status = AppState.AppStateReady then
          ls.replsetsReady + 1 else ls.replsetsReady) ∧
      ls2.Status.State = ls.Status.State ∧ ls2.Status.Message = ls.Status.Message ∧
      ls2.Status.Host = ls.Status.Host ∧
      ls2.Status.ObservedGeneration = ls.Status.ObservedGeneration ∧
      (ls.inProgress = true → ls2.inProgress = true) ∧
      (ls.inProgress = false →
        ∃ sfs, env.getStatefulSet cr.Namespace (cr.Name ++ "-" ++ rs.Name) = Except.ok sfs ∧
          ls2.inProgress = decide (sfs.Replicas > sfs.UpdatedReplicas)) := by
  obtain ⟨ls1, he, hc⟩ := replsetStep_finished env cr ls ls2 rs h
  obtain ⟨items, kvs, hlist, hmap⟩ := evalReplset_finished_inv env cr ls ls1 rs he
  rw [evalReplset_eq env cr ls rs items kvs hlist hmap] at he
  simp only [LoopResult.finished.injEq] at he
  obtain ⟨hS, hC, hR, hP1, hP2⟩ := checkUpgrade_finished env cr ls1 ls2 rs hc
  subst he
  refine ⟨items, kvs, hlist, hmap, ?_, ?_, ?_, ?_, ?_, ?_, ?_, ?_, ?_, ?_⟩
  · rw [hS]
  · rw [hS]
  · rw [hC]
  · rw [hR]
  · rw [hS]
  · rw [hS]
  · rw [hS]
  · rw [hS]
  · exact hP1
  · exact hP2

/-! ## The whole loop -/

theorem groupState_of_list (env : Env) (cr : CR) (rs : ReplsetSpec) (items : List Pod)
    (h : env.listPods cr.Namespace cr.Name rs.Name = Except.ok items) :
    groupState env cr rs = (rsStatusOf env.now rs items).Status := by
  simp [groupState, h]

/-- The loop leaves the summary fields alone and only adds to the history. -/
theorem replsetLoop_frame (env : Env) (cr : CR) (repls : List ReplsetSpec) (ls ls2 : LoopState)
    (h : replsetLoop env cr repls ls = LoopResult.finished ls2) :
    ls2.Status.State = ls.Status.State ∧ ls2.Status.Message = ls.Status.Message ∧
    ls2.Status.Host = ls.Status.Host ∧
    ls2.Status.ObservedGeneration = ls.Status.ObservedGeneration ∧
    (∃ added, ls2.Status.Conditions = ls.Status.Conditions ++ added) := by
  induction repls generalizing ls with
  | nil =>
    simp only [replsetLoop, LoopResult.finished.injEq] at h
    subst h
    exact ⟨rfl, rfl, rfl, rfl, [], by simp⟩
  | cons rs rest ih =>
    obtain ⟨ls1, hs, hl⟩ := replsetLoop_cons_finished env cr rs rest ls ls2 h
    obtain ⟨items, kvs, _, _, _, hC, _, _, h1, h2, h3, h4, _, _⟩ :=
      replsetStep_facts env cr ls ls1 rs hs
    obtain ⟨g1, g2, g3, g4, added, g5⟩ := ih ls1 hl
    refine ⟨g1.trans h1, g2.trans h2, g3.trans h3, g4.trans h4, ?_⟩
    rw [g5, hC]
    split_ifs
    · exact ⟨_, List.append_assoc _ _ _⟩
    · exact ⟨added, rfl⟩

/-- The counter of ready replica sets after the loop. -/
theorem replsetLoop_replsetsReady (env : Env) (cr : CR) (repls : List ReplsetSpec)
    (ls ls2 : LoopState) (h : replsetLoop env cr repls ls = LoopResult.finished ls2) :
    ls2.replsetsReady = ls.replsetsReady + readyGroups env cr repls := by
  induction repls generalizing ls with
  | nil =>
    simp only [replsetLoop, LoopResult.finished.injEq] at h
    subst h
    simp [readyGroups]
  | cons rs rest ih =>
    obtain ⟨ls1, hs, hl⟩ := replsetLoop_cons_finished env cr rs rest ls ls2 h
    obtain ⟨items, kvs, hlist, _, _, _, _, hR, _⟩ := replsetStep_facts env cr ls ls1 rs hs
    rw [ih ls1 hl, hR]
    have hg := groupState_of_list env cr rs items hlist
    simp only [readyGroups, List.countP_cons, hg] at *
    split_ifs <;> simp_all
    omega

/-- When the flag `inProgress` is false after the loop, it was false before and
the detector answered false for every replica set. -/
theorem replsetLoop_inProgress_false (env : Env) (cr : CR) (repls : List ReplsetSpec)
    (ls ls2 : LoopState) (h : replsetLoop env cr repls ls = LoopResult.finished ls2)
    (hf : ls2.inProgress = false) :
    ls.inProgress = false ∧ ∀ rs ∈ repls, noRollout env cr rs := by
  induction repls generalizing ls with
  | nil =>
    simp only [replsetLoop, LoopResult.finished.injEq] at h
    subst h
    exact ⟨hf, by simp⟩
  | cons rs rest ih =>
    obtain ⟨ls1, hs, hl⟩ := replsetLoop_cons_finished env cr rs rest ls ls2 h
    obtain ⟨items, kvs, _, _, _, _, _, _, _, _, _, _, hP1, hP2⟩ :=
      replsetStep_facts env cr ls ls1 rs hs
    obtain ⟨h1, hrest⟩ := ih ls1 hl
    have h0 : ls.inProgress = false := by
      cases hp : ls.inProgress with
      | false => rfl
      | true => rw [hP1 hp] at h1; cases h1
    refine ⟨h0, ?_⟩
    intro r hr
    rcases List.mem_cons.mp hr with rfl | hr
    · obtain ⟨sfs, hsfs, hdec⟩ := hP2 h0
      rw [h1] at hdec
      refine ⟨sfs, hsfs, ?_⟩
      have := of_decide_eq_false hdec.symm
      omega
    · exact hrest r hr

/-- When the flag `inProgress` was true, or the detector answers true for some
replica set, the flag is true after the loop. -/
theorem replsetLoop_inProgress_true (env : Env) (cr : CR) (repls : List ReplsetSpec)
    (ls ls2 : LoopState) (h : replsetLoop env cr repls ls = LoopResult.finished ls2)
    (ht : ls.inProgress = true ∨ ∃ rs ∈ repls, rollout env cr rs) :
    ls2.inProgress = true := by
  induction repls generalizing ls with
  | nil =>
    simp only [replsetLoop, LoopResult.finished.injEq] at h
    subst h
    rcases ht with ht | ⟨rs, hrs, _⟩
    · exact ht
    · cases hrs
  | cons rs rest ih =>
    obtain ⟨ls1, hs, hl⟩ := replsetLoop_cons_finished env cr rs rest ls ls2 h
    obtain ⟨items, kvs, _, _, _, _, _, _, _, _, _, _, hP1, hP2⟩ :=
      replsetStep_facts env cr ls ls1 rs hs
    apply ih ls1 hl
    cases hp : ls.inProgress with
    | true => exact Or.inl (hP1 hp)
    | false =>
      obtain ⟨sfs, hsfs, hdec⟩ := hP2 hp
      rcases ht with ht | ⟨r, hr, hroll⟩
      · rw [hp] at ht; cases ht
      · rcases List.mem_cons.mp hr with rfl | hr
        · obtain ⟨sfs2, hsfs2, hgt⟩ := hroll
          rw [hsfs] at hsfs2
          cases hsfs2
          exact Or.inl (by rw [hdec]; exact decide_eq_true hgt)
        · exact Or.inr ⟨r, hr, hroll⟩

/-! ## The decision, the final append and the trim -/

theorem lastType_appendCondition (conditions : List ClusterCondition) (c : ClusterCondition) :
    lastType (appendCondition conditions c) = some c.Type_ := by
  unfold appendCondition lastType
  cases hl : conditions.getLast? with
  | none => simp
  | some last =>
    by_cases ht : last.Type_ = c.Type_
    · simp [ht, hl]
    · simp [ht]

theorem appendCondition_ne_nil (conditions : List ClusterCondition) (c : ClusterCondition) :
    appendCondition conditions c ≠ [] := by
  intro h
  have := lastType_appendCondition conditions c
  rw [h] at this
  simp [lastType] at this

theorem trimConditions_length (conditions : List ClusterCondition) :
    (trimConditions conditions).length ≤ maxStatusesQuantity := by
  unfold trimConditions
  split_ifs with h
  · rw [List.length_drop]
    omega
  · omega

theorem lastType_trimConditions (conditions : List ClusterCondition) :
    lastType (trimConditions conditions) = lastType conditions := by
  unfold trimConditions lastType
  split_ifs with h
  · rw [List.getLast?_drop]
    have : ¬ conditions.length ≤ conditions.length - maxStatusesQuantity := by
      simp only [maxStatusesQuantity] at h ⊢
      omega
    simp [this]
  · rfl

theorem trimConditions_of_le (conditions : List ClusterCondition)
    (h : conditions.length ≤ maxStatusesQuantity) : trimConditions conditions = conditions := by
  unfold trimConditions
  rw [if_neg (by omega)]

/-- How a cycle without error that ends with the status write is made: the
loop finished, the decision was taken, the endpoint was resolved. -/
theorem updateStatus_written_inv (env : Env) (cr : CR) (clusterState : mongoClusterState)
    (st : Status) (err : Option String) (calls : List Call)
    (h : updateStatus env cr none clusterState = Outcome.written st err calls) :
    ∃ ls condType state host eerr ecalls,
      replsetLoop env cr (replsOf cr) (loopStart env cr) = LoopResult.finished ls ∧
      decideState ls.Status.Conditions ls.replsetsReady (replsOf cr).length clusterState =
        some (condType, state) ∧
      connectionEndpoint env cr = EndpointResult.returned host eerr ecalls ∧
      st = { ls.Status with
             State := if ls.inProgress then AppState.AppStateInit else state
             Conditions := trimConditions
               (appendCondition ls.Status.Conditions (decisionCondition env.now condType))
             ObservedGeneration := cr.Generation
             Host := host } ∧
      err = (writeStatus env st).1 ∧
      calls = ls.calls ++ ecalls ++ (writeStatus env st).2 := by
  unfold updateStatus at h
  simp only at h
  cases hl : replsetLoop env cr (replsOf cr) (loopStart env cr) with
  | panicked => simp [hl] at h
  | failed l e => simp [hl] at h
  | finished ls =>
    simp only [hl, updateStatusAfterLoop] at h
    cases hd : decideState ls.Status.Conditions ls.replsetsReady (replsOf cr).length
        clusterState with
    | none => simp [hd] at h
    | some p =>
      obtain ⟨condType, state⟩ := p
      simp only [hd] at h
      cases he : connectionEndpoint env cr with
      | panicked c => simp [he] at h
      | returned host eerr ecalls =>
        simp only [he, Outcome.written.injEq] at h
        obtain ⟨h1, h2, h3⟩ := h
        refine ⟨ls, condType, state, host, eerr, ecalls, rfl, hd, rfl, h1.symm, ?_, ?_⟩
        · rw [← h2, h1]
        · rw [← h3, h1]

/-- A cycle with an error always ends with the status write. -/
theorem updateStatus_error_eq (env : Env) (cr : CR) (msg : String)
    (clusterState : mongoClusterState) :
    updateStatus env cr (some msg) clusterState = updateStatusOnError env cr msg := rfl

/-- The three outcomes of the decision. -/
theorem decideState_some (conditions : List ClusterCondition) (replsetsReady nrepls : Nat)
    (clusterState : mongoClusterState) (condType : ClusterConditionType) (state : AppState)
    (h : decideState conditions replsetsReady nrepls clusterState = some (condType, state)) :
    (replsetsReady = nrepls ∧ clusterState = mongoClusterState.clusterReady ∧
      condType = ClusterConditionType.ClusterReady ∧ state = AppState.AppStateReady) ∨
    (¬ (replsetsReady = nrepls ∧ clusterState = mongoClusterState.clusterReady) ∧
      conditions ≠ [] ∧
      lastType conditions ≠ some ClusterConditionType.ClusterReady ∧
      clusterState = mongoClusterState.clusterInit ∧
      condType = ClusterConditionType.ClusterInit ∧ state = AppState.AppStateInit) ∨
    (¬ (replsetsReady = nrepls ∧ clusterState = mongoClusterState.clusterReady) ∧
      conditions ≠ [] ∧
      ¬ (lastType conditions ≠ some ClusterConditionType.ClusterReady ∧
        clusterState = mongoClusterState.clusterInit) ∧
      condType = ClusterConditionType.ClusterError ∧ state = AppState.AppStateError) := by
  unfold decideState at h
  by_cases h1 : replsetsReady = nrepls ∧ clusterState = mongoClusterState.clusterReady
  · rw [if_pos h1] at h
    simp only [Option.some.injEq, Prod.mk.injEq] at h
    exact Or.inl ⟨h1.1, h1.2, h.1.symm, h.2.symm⟩
  · rw [if_neg h1] at h
    cases hl : conditions.getLast? with
    | none => simp [hl] at h
    | some last =>
      have hne : conditions ≠ [] := by
        intro hnil
        simp [hnil] at hl
      simp only [hl] at h
      by_cases h2 : last.Type_ ≠ ClusterConditionType.ClusterReady ∧
          clusterState = mongoClusterState.clusterInit
      · rw [if_pos h2] at h
        simp only [Option.some.injEq, Prod.mk.injEq] at h
        refine Or.inr (Or.inl ⟨h1, hne, ?_, h2.2, h.1.symm, h.2.symm⟩)
        simp only [lastType, hl, Option.map_some', ne_eq, Option.some.injEq]
        exact h2.1
      · rw [if_neg h2] at h
        simp only [Option.some.injEq, Prod.mk.injEq] at h
        refine Or.inr (Or.inr ⟨h1, hne, ?_, h.1.symm, h.2.symm⟩)
        simpa only [lastType, hl, Option.map_some', ne_eq, Option.some.injEq] using h2

/-- When the flag `inProgress` is true after the loop, it was true before or
the detector answered true for some replica set. -/
theorem replsetLoop_inProgress_of_true (env : Env) (cr : CR) (repls : List ReplsetSpec)
    (ls ls2 : LoopState) (h : replsetLoop env cr repls ls = LoopResult.finished ls2)
    (ht : ls2.inProgress = true) :
    ls.inProgress = true ∨ ∃ rs ∈ repls, rollout env cr rs := by
  induction repls generalizing ls with
  | nil =>
    simp only [replsetLoop, LoopResult.finished.injEq] at h
    subst h
    exact Or.inl ht
  | cons rs rest ih =>
    obtain ⟨ls1, hs, hl⟩ := replsetLoop_cons_finished env cr rs rest ls ls2 h
    obtain ⟨items, kvs, _, _, _, _, _, _, _, _, _, _, _, hP2⟩ :=
      replsetStep_facts env cr ls ls1 rs hs
    rcases ih ls1 hl with h1 | ⟨r, hr, hroll⟩
    · cases hp : ls.inProgress with
      | true => exact Or.inl rfl
      | false =>
        obtain ⟨sfs, hsfs, hdec⟩ := hP2 hp
        rw [h1] at hdec
        exact Or.inr ⟨rs, List.mem_cons_self _ _, sfs, hsfs, of_decide_eq_true hdec.symm⟩
    · exact Or.inr ⟨r, List.mem_cons_of_mem _ hr, hroll⟩

/-- In a cluster that answers every stateful set lookup with counters that
show no rolling update, no detector answers true. -/
theorem constEnv_no_rollout (now : Int) (items : List Pod) (sfs : StatefulSetStatus) (cr : CR)
    (hsfs : sfs.Replicas ≤ sfs.UpdatedReplicas) (rs : ReplsetSpec) :
    ¬ rollout (constEnv now items sfs) cr rs := by
  rintro ⟨s, h1, h2⟩
  simp only [constEnv, Except.ok.injEq] at h1
  subst h1
  omega

theorem conditionsAfterLoop_of_finished (env : Env) (cr : CR) (ls : LoopState)
    (h : replsetLoop env cr (replsOf cr) (loopStart env cr) = LoopResult.finished ls) :
    conditionsAfterLoop env cr = ls.Status.Conditions := by
  simp [conditionsAfterLoop, h]

/-- C4: on a cycle without error that ends with the status write and in which
no rollout detector answered true, the overall state is Ready when the number
of replica sets whose computed state is Ready equals the number of replica
sets and the desired signal is `clusterReady`; otherwise Init when the desired
signal is `clusterInit` and the type of the most recent condition, at the time
of the decision, is not Ready; otherwise Error. In each case the last
condition of the resulting history has the matching type. -/
theorem updateStatus_decision_table (env : Env) (cr : CR) (clusterState : mongoClusterState)
    (st : Status) (err : Option String) (calls : List Call)
    (h : updateStatus env cr none clusterState = Outcome.written st err calls)
    (hno : ∀ rs ∈ replsOf cr, ¬ rollout env cr rs) :
    if readyGroups env cr (replsOf cr) = (replsOf cr).length ∧
        clusterState = mongoClusterState.clusterReady then
      st.State = AppState.AppStateReady ∧
        lastType st.Conditions = some ClusterConditionType.ClusterReady
    else if clusterState = mongoClusterState.clusterInit ∧
        lastType (conditionsAfterLoop env cr) ≠ some ClusterConditionType.ClusterReady then
      st.State = AppState.AppStateInit ∧
        lastType st.Conditions = some ClusterConditionType.ClusterInit
    else
      st.State = AppState.AppStateError ∧
        lastType st.Conditions = some ClusterConditionType.ClusterError := by
  obtain ⟨ls, condType, state, host, eerr, ecalls, hloop, hdec, _, hst, _, _⟩ :=
    updateStatus_written_inv env cr clusterState st err calls h
  have hready := replsetLoop_replsetsReady env cr (replsOf cr) (loopStart env cr) ls hloop
  simp only [loopStart, zero_add] at hready
  have hprog : ls.inProgress = false := by
    cases hp : ls.inProgress with
    | false => rfl
    | true =>
      rcases replsetLoop_inProgress_of_true env cr (replsOf cr) (loopStart env cr) ls hloop hp
        with h0 | ⟨rs, hrs, hroll⟩
      · simp [loopStart] at h0
      · exact absurd hroll (hno rs hrs)
  rw [conditionsAfterLoop_of_finished env cr ls hloop]
  have hlast : lastType st.Conditions = some condType := by
    rw [hst]
    simp only [lastType_trimConditions, lastType_appendCondition, decisionCondition]
  have hstate : st.State = state := by
    rw [hst]
    simp [hprog]
  rw [hready] at hdec
  rcases decideState_some _ _ _ _ _ _ hdec with ⟨a, b, c, d⟩ | ⟨a, _, b, c, d, e⟩ | ⟨a, _, b, c, d⟩
  · rw [if_pos ⟨a, b⟩, hstate, hlast, c, d]
    exact ⟨rfl, rfl⟩
  · rw [if_neg a, if_pos ⟨c, b⟩, hstate, hlast, d, e]
    exact ⟨rfl, rfl⟩
  · rw [if_neg a, if_neg (fun hh => b ⟨hh.2, hh.1⟩), hstate, hlast, c, d]
    exact ⟨rfl, rfl⟩

theorem updateStatus_decision_table_witness :
    updateStatus exEnvReady exCRFresh none mongoClusterState.clusterReady =
      Outcome.written exStatusReady none
        [Call.listPods "ns" "c" "rs0", Call.getStatefulSet "ns" "c-rs0", Call.statusUpdate] ∧
    exStatusReady.State = AppState.AppStateReady ∧
    lastType exStatusReady.Conditions = some ClusterConditionType.ClusterReady := by
  have h := updateStatus_decision_table exEnvReady exCRFresh mongoClusterState.clusterReady
    exStatusReady none _ rfl
    (fun rs _ => constEnv_no_rollout exNow [exReadyPod] exSfsDone exCRFresh (by decide) rs)
  rw [if_pos (by decide)] at h
  exact ⟨rfl, h⟩

/-! ## The map after the loop -/

/-- The loop does not touch the entries of other names. -/
theorem replsetLoop_map_other (env : Env) (cr : CR) (repls : List ReplsetSpec)
    (ls ls2 : LoopState) (h : replsetLoop env cr repls ls = LoopResult.finished ls2)
    (k : String) (hk : ∀ rs ∈ repls, rs.Name ≠ k) :
    mapGet ls2.Status.Replsets k = mapGet ls.Status.Replsets k := by
  induction repls generalizing ls with
  | nil =>
    simp only [replsetLoop, LoopResult.finished.injEq] at h
    subst h
    rfl
  | cons rs rest ih =>
    obtain ⟨ls1, hs, hl⟩ := replsetLoop_cons_finished env cr rs rest ls ls2 h
    obtain ⟨items, kvs, _, hmap, hmap1, _⟩ := replsetStep_facts env cr ls ls1 rs hs
    rw [ih ls1 hl (fun r hr => hk r (List.mem_cons_of_mem _ hr)), hmap1, hmap]
    simp only [mapGet, kvGet_kvSet]
    rw [if_neg (hk rs (List.mem_cons_self _ _))]

/-- After the loop, the entry of every replica set of the list holds the state
computed for a replica set of that name (the last one in the list). -/
theorem replsetLoop_map_state (env : Env) (cr : CR) (repls : List ReplsetSpec)
    (ls ls2 : LoopState) (h : replsetLoop env cr repls ls = LoopResult.finished ls2) :
    ∀ rs ∈ repls, ∃ rs2 ∈ repls, rs2.Name = rs.Name ∧
      ∃ s, mapGet ls2.Status.Replsets rs.Name = some s ∧ s.Status = groupState env cr rs2 := by
  induction repls generalizing ls with
  | nil => intro rs hrs; cases hrs
  | cons r rest ih =>
    obtain ⟨ls1, hs, hl⟩ := replsetLoop_cons_finished env cr r rest ls ls2 h
    obtain ⟨items, kvs, hlist, hmap, hmap1, _⟩ := replsetStep_facts env cr ls ls1 r hs
    have hrest := ih ls1 hl
    intro rs hrs
    by_cases hin : ∃ r2 ∈ rest, r2.Name = rs.Name
    · obtain ⟨r2, hr2, hname⟩ := hin
      obtain ⟨r3, hr3, hn3, s, hs3, hst3⟩ := hrest r2 hr2
      exact ⟨r3, List.mem_cons_of_mem _ hr3, hn3.trans hname, s, by rw [← hname]; exact hs3, hst3⟩
    · have hout : ∀ r2 ∈ rest, r2.Name ≠ rs.Name := fun r2 hr2 hn => hin ⟨r2, hr2, hn⟩
      rcases List.mem_cons.mp hrs with rfl | hrs
      · refine ⟨rs, List.mem_cons_self _ _, rfl,
          carried (rsStatusOf env.now rs items) (currentOf (some kvs) rs.Name), ?_, ?_⟩
        · rw [replsetLoop_map_other env cr rest ls1 ls2 hl rs.Name hout, hmap1]
          simp only [mapGet, kvGet_kvSet, if_true]
        · rw [carried_Status, groupState_of_list env cr rs items hlist]
      · exact absurd rfl (hout rs hrs)

theorem readyGroups_eq_length (env : Env) (cr : CR) (repls : List ReplsetSpec)
    (h : readyGroups env cr repls = repls.length) :
    ∀ rs ∈ repls, groupState env cr rs = AppState.AppStateReady := by
  intro rs hrs
  have := (List.countP_eq_length).mp h rs hrs
  simpa using this

/-- The list `repls` holds the replica sets of the spec and, when sharding is
enabled and the config server replica set is set, that one too; nothing else. -/
theorem mem_replsOf (cr : CR) (rs : ReplsetSpec) :
    rs ∈ replsOf cr ↔
      rs ∈ cr.Spec.Replsets ∨
        (cr.Spec.Sharding.Enabled = true ∧ cr.Spec.Sharding.ConfigsvrReplSet = some rs) := by
  unfold replsOf
  cases hc : cr.Spec.Sharding.ConfigsvrReplSet with
  | none => simp
  | some cfg =>
    cases he : cr.Spec.Sharding.Enabled with
    | false => simp
    | true =>
      simp only [if_true, List.mem_append, List.mem_singleton, Option.some.injEq, true_and]
      exact ⟨fun h => h.imp id Eq.symm, fun h => h.imp id Eq.symm⟩

/-- When the overall state written is Ready, every replica set of the list
`repls` is stored in state Ready and no detector answered true. -/
theorem updateStatus_ready_replsOf (env : Env) (cr : CR) (reconcileErr : Option String)
    (clusterState : mongoClusterState) (st : Status) (err : Option String) (calls : List Call)
    (h : updateStatus env cr reconcileErr clusterState = Outcome.written st err calls)
    (hready : st.State = AppState.AppStateReady) :
    (∀ rs ∈ replsOf cr, ∃ s, mapGet st.Replsets rs.Name = some s ∧
        s.Status = AppState.AppStateReady) ∧
    (∀ rs ∈ replsOf cr, noRollout env cr rs) := by
  cases reconcileErr with
  | some msg =>
    simp only [updateStatus_error_eq, updateStatusOnError, Outcome.written.injEq] at h
    rw [← h.1] at hready
    cases hready
  | none =>
    obtain ⟨ls, condType, state, host, eerr, ecalls, hloop, hdec, _, hst, _, _⟩ :=
      updateStatus_written_inv env cr clusterState st err calls h
    have hprog : ls.inProgress = false := by
      cases hp : ls.inProgress with
      | false => rfl
      | true => rw [hst] at hready; simp [hp] at hready
    have hstate : state = AppState.AppStateReady := by
      rw [hst] at hready
      simpa [hprog] using hready
    have hcount := replsetLoop_replsetsReady env cr (replsOf cr) (loopStart env cr) ls hloop
    simp only [loopStart, zero_add] at hcount
    have hall : ∀ rs ∈ replsOf cr, groupState env cr rs = AppState.AppStateReady := by
      apply readyGroups_eq_length
      rcases decideState_some _ _ _ _ _ _ hdec with ⟨a, _⟩ | ⟨_, _, _, _, _, e⟩ | ⟨_, _, _, _, d⟩
      · rw [← hcount]; exact a
      · rw [hstate] at e; cases e
      · rw [hstate] at d; cases d
    refine ⟨?_, (replsetLoop_inProgress_false env cr (replsOf cr) (loopStart env cr) ls hloop
      hprog).2⟩
    intro rs hrs
    obtain ⟨rs2, hrs2, _, s, hs, hs2⟩ :=
      replsetLoop_map_state env cr (replsOf cr) (loopStart env cr) ls hloop rs hrs
    refine ⟨s, ?_, by rw [hs2]; exact hall rs2 hrs2⟩
    rw [hst]
    exact hs

/-- C5: when a call of `updateStatus` ends with the status write and the
overall state written is Ready, then every replica set of the spec, and the
config server replica set too when sharding is enabled and it is set, has
state Ready in the resulting map, and the rollout detector answered false for
it: its stateful set was found with no more replicas than updated replicas. -/
theorem updateStatus_ready_sound (env : Env) (cr : CR) (reconcileErr : Option String)
    (clusterState : mongoClusterState) (st : Status) (err : Option String) (calls : List Call)
    (h : updateStatus env cr reconcileErr clusterState = Outcome.written st err calls)
    (hready : st.State = AppState.AppStateReady) :
    ∀ rs : ReplsetSpec,
      (rs ∈ cr.Spec.Replsets ∨
        (cr.Spec.Sharding.Enabled = true ∧ cr.Spec.Sharding.ConfigsvrReplSet = some rs)) →
      (∃ s, mapGet st.Replsets rs.Name = some s ∧ s.Status = AppState.AppStateReady) ∧
      (∃ sfs, env.getStatefulSet cr.Namespace (cr.Name ++ "-" ++ rs.Name) = Except.ok sfs ∧
        sfs.Replicas ≤ sfs.UpdatedReplicas) := by
  intro rs hrs
  have hmem := (mem_replsOf cr rs).mpr hrs
  obtain ⟨h1, h2⟩ := updateStatus_ready_replsOf env cr reconcileErr clusterState st err calls h
    hready
  exact ⟨h1 rs hmem, h2 rs hmem⟩

theorem updateStatus_ready_sound_witness :
    exCRSharded.Spec.Sharding.Enabled = true ∧
    exCRSharded.Spec.Sharding.ConfigsvrReplSet = some exConfigsvr ∧
    ∃ st err calls,
      updateStatus exEnvReady exCRSharded none mongoClusterState.clusterReady =
        Outcome.written st err calls ∧
      st.State = AppState.AppStateReady ∧
      ((∃ s, mapGet st.Replsets "cfg" = some s ∧ s.Status = AppState.AppStateReady) ∧
        (∃ sfs, exEnvReady.getStatefulSet "ns" ("c" ++ "-" ++ "cfg") = Except.ok sfs ∧
          sfs.Replicas ≤ sfs.UpdatedReplicas)) ∧
      ((∃ s, mapGet st.Replsets "rs0" = some s ∧ s.Status = AppState.AppStateReady) ∧
        (∃ sfs, exEnvReady.getStatefulSet "ns" ("c" ++ "-" ++ "rs0") = Except.ok sfs ∧
          sfs.Replicas ≤ sfs.UpdatedReplicas)) :=
  ⟨rfl, rfl, _, _, _, rfl, rfl,
    updateStatus_ready_sound exEnvReady exCRSharded none mongoClusterState.clusterReady _ _ _
      rfl rfl exConfigsvr (Or.inr ⟨rfl, rfl⟩),
    updateStatus_ready_sound exEnvReady exCRSharded none mongoClusterState.clusterReady _ _ _
      rfl rfl (exReplset 1) (Or.inl (by decide))⟩

/-! ## The loop does not depend on the stateful sets -/

theorem evalReplset_env (env env2 : Env) (cr : CR) (ls : LoopState) (rs : ReplsetSpec)
    (hnow : env2.now = env.now) (hlist : env2.listPods = env.listPods) :
    evalReplset env2 cr ls rs = evalReplset env cr ls rs := by
  simp only [evalReplset, rsStatus, hnow, hlist]

/-- The status, the condition and the counter after a finished turn, as one
equation each. -/
theorem replsetStep_core (env : Env) (cr : CR) (ls ls2 : LoopState) (rs : ReplsetSpec)
    (items : List Pod) (kvs : List (String × ReplsetStatus))
    (hlist : env.listPods cr.Namespace cr.Name rs.Name = Except.ok items)
    (hmap : ls.Status.Replsets = some kvs)
    (h : replsetStep env cr ls rs = LoopResult.finished ls2) :
    ls2.Status =
      { ls.Status with
        Conditions :=
          if (rsStatusOf env.now rs items).Status ≠ (currentOf (some kvs) rs.Name).Status then
            ls.Status.Conditions ++
              [transitionCondition env.now rs.Name
                (carried (rsStatusOf env.now rs items) (currentOf (some kvs) rs.Name))
                (currentOf (some kvs) rs.Name).Initialized ls.clusterCondition]
          else ls.Status.Conditions
        Replsets := some (kvSet kvs rs.Name
          (carried (rsStatusOf env.now rs items) (currentOf (some kvs) rs.Name))) } ∧
    ls2.clusterCondition =
      (if (rsStatusOf env.now rs items).Status ≠ (currentOf (some kvs) rs.Name).Status then
        transitionCondition env.now rs.Name
          (carried (rsStatusOf env.now rs items) (currentOf (some kvs) rs.Name))
          (currentOf (some kvs) rs.Name).Initialized ls.clusterCondition
      else ls.clusterCondition) ∧
    ls2.replsetsReady =
      (if (rsStatusOf env.now rs items).Status = AppState.AppStateReady then
        ls.replsetsReady + 1 else ls.replsetsReady) := by
  obtain ⟨ls1, he, hc⟩ := replsetStep_finished env cr ls ls2 rs h
  rw [evalReplset_eq env cr ls rs items kvs hlist hmap] at he
  simp only [LoopResult.finished.injEq] at he
  obtain ⟨hS, hC, hR, _, _⟩ := checkUpgrade_finished env cr ls1 ls2 rs hc
  subst he
  exact ⟨hS, hC, hR⟩

/-- A turn of the loop finishes when the pods are listed, the map is allocated
and the stateful set is found. -/
theorem replsetStep_total (env : Env) (cr : CR) (ls : LoopState) (rs : ReplsetSpec)
    (items : List Pod) (kvs : List (String × ReplsetStatus)) (sfs : StatefulSetStatus)
    (hlist : env.listPods cr.Namespace cr.Name rs.Name = Except.ok items)
    (hmap : ls.Status.Replsets = some kvs)
    (hsfs : env.getStatefulSet cr.Namespace (cr.Name ++ "-" ++ rs.Name) = Except.ok sfs) :
    ∃ ls2, replsetStep env cr ls rs = LoopResult.finished ls2 := by
  simp only [replsetStep, evalReplset_eq env cr ls rs items kvs hlist hmap, checkUpgrade,
    upgradeInProgress, hsfs]
  split_ifs <;> exact ⟨_, rfl⟩

/-- Two runs of the loop in clusters that agree on the clock and on the pod
listings, from local variables that agree on the status, the condition and the
counter: when the first finishes and every stateful set lookup of the second
succeeds, the second finishes with the same status, condition and counter. -/
theorem replsetLoop_env (env env2 : Env) (cr : CR) (repls : List ReplsetSpec)
    (ls ls2 lsb : LoopState)
    (hnow : env2.now = env.now) (hlist : env2.listPods = env.listPods)
    (h : replsetLoop env cr repls ls = LoopResult.finished ls2)
    (hS : lsb.Status = ls.Status) (hC : lsb.clusterCondition = ls.clusterCondition)
    (hR : lsb.replsetsReady = ls.replsetsReady)
    (hsfs : ∀ rs ∈ repls, ∃ sfs,
      env2.getStatefulSet cr.Namespace (cr.Name ++ "-" ++ rs.Name) = Except.ok sfs) :
    ∃ lsb2, replsetLoop env2 cr repls lsb = LoopResult.finished lsb2 ∧
      lsb2.Status = ls2.Status ∧ lsb2.clusterCondition = ls2.clusterCondition ∧
      lsb2.replsetsReady = ls2.replsetsReady := by
  induction repls generalizing ls lsb with
  | nil =>
    simp only [replsetLoop, LoopResult.finished.injEq] at h
    subst h
    exact ⟨lsb, rfl, hS, hC, hR⟩
  | cons rs rest ih =>
    obtain ⟨ls1, hs, hl⟩ := replsetLoop_cons_finished env cr rs rest ls ls2 h
    obtain ⟨items, kvs, hitems, hmap, _⟩ := replsetStep_facts env cr ls ls1 rs hs
    have hitems2 : env2.listPods cr.Namespace cr.Name rs.Name = Except.ok items := by
      rw [hlist]; exact hitems
    have hmap2 : lsb.Status.Replsets = some kvs := by rw [hS]; exact hmap
    obtain ⟨sfs, hsfs0⟩ := hsfs rs (List.mem_cons_self _ _)
    obtain ⟨lsb1, hsb⟩ := replsetStep_total env2 cr lsb rs items kvs sfs hitems2 hmap2 hsfs0
    obtain ⟨a1, a2, a3⟩ := replsetStep_core env cr ls ls1 rs items kvs hitems hmap hs
    obtain ⟨b1, b2, b3⟩ := replsetStep_core env2 cr lsb lsb1 rs items kvs hitems2 hmap2 hsb
    rw [hnow, hS, hC] at b1
    rw [hnow, hC] at b2
    rw [hnow, hR] at b3
    obtain ⟨lsb2, hlb, e1, e2, e3⟩ := ih ls1 lsb1 hl (b1.trans a1.symm) (b2.trans a2.symm)
      (b3.trans a3.symm) (fun r hr => hsfs r (List.mem_cons_of_mem _ hr))
    refine ⟨lsb2, ?_, e1, e2, e3⟩
    simp only [replsetLoop, hsb]
    exact hlb

theorem connectionEndpoint_env (env env2 : Env) (cr : CR)
    (hlist : env2.listPods = env.listPods) (hsvc : env2.getService = env.getService)
    (haddrs : env2.getReplsetAddrs = env.getReplsetAddrs) :
    connectionEndpoint env2 cr = connectionEndpoint env cr := by
  simp only [connectionEndpoint, loadBalancerServiceEndpoint, hlist, hsvc, haddrs]

theorem not_rollout_of_noRollout (env : Env) (cr : CR) (rs : ReplsetSpec)
    (h : noRollout env cr rs) : ¬ rollout env cr rs := by
  rintro ⟨sfs, h1, h2⟩
  obtain ⟨sfs2, g1, g2⟩ := h
  rw [h1] at g1
  cases g1
  omega

/-- The outcome of a cycle without error, from its three stages. -/
theorem updateStatus_written_of (env : Env) (cr : CR) (clusterState : mongoClusterState)
    (ls : LoopState) (condType : ClusterConditionType) (state : AppState) (host : String)
    (eerr : Option String) (ecalls : List Call)
    (hloop : replsetLoop env cr (replsOf cr) (loopStart env cr) = LoopResult.finished ls)
    (hdec : decideState ls.Status.Conditions ls.replsetsReady (replsOf cr).length clusterState =
      some (condType, state))
    (hep : connectionEndpoint env cr = EndpointResult.returned host eerr ecalls) :
    ∃ err calls, updateStatus env cr none clusterState =
      Outcome.written
        { ls.Status with
          State := if ls.inProgress then AppState.AppStateInit else state
          Conditions := trimConditions
            (appendCondition ls.Status.Conditions (decisionCondition env.now condType))
          ObservedGeneration := cr.Generation
          Host := host } err calls := by
  simp only [updateStatus, hloop, updateStatusAfterLoop, hdec, hep]
  exact ⟨_, _, rfl⟩

/-- C6: on a cycle without error that ends with the status write and in which
the stateful set of at least one evaluated replica set has more replicas than
updated replicas, the overall state written is Init; and in any cluster that
differs only in its stateful sets and shows no rollout, the same cycle ends
with the status write too, with the same condition history: the two statuses
differ in the overall state at most. -/
theorem updateStatus_rollout_override (env : Env) (cr : CR) (clusterState : mongoClusterState)
    (st : Status) (err : Option String) (calls : List Call)
    (h : updateStatus env cr none clusterState = Outcome.written st err calls)
    (hroll : ∃ rs ∈ replsOf cr, rollout env cr rs) :
    st.State = AppState.AppStateInit ∧
    ∀ env2 : Env, env2.now = env.now → env2.listPods = env.listPods →
      env2.getService = env.getService → env2.getReplsetAddrs = env.getReplsetAddrs →
      (∀ rs ∈ replsOf cr, noRollout env2 cr rs) →
      ∃ st2 err2 calls2,
        updateStatus env2 cr none clusterState = Outcome.written st2 err2 calls2 ∧
        st2.Conditions = st.Conditions ∧ st = { st2 with State := AppState.AppStateInit } := by
  obtain ⟨ls, condType, state, host, eerr, ecalls, hloop, hdec, hep, hst, _, _⟩ :=
    updateStatus_written_inv env cr clusterState st err calls h
  have hprog : ls.inProgress = true :=
    replsetLoop_inProgress_true env cr (replsOf cr) (loopStart env cr) ls hloop (Or.inr hroll)
  have hstate : st.State = AppState.AppStateInit := by
    rw [hst]
    simp [hprog]
  refine ⟨hstate, ?_⟩
  intro env2 hnow hlist hsvc haddrs hno
  obtain ⟨lsb, hloopb, e1, _, e3⟩ := replsetLoop_env env env2 cr (replsOf cr) (loopStart env cr)
    ls (loopStart env2 cr) hnow hlist hloop rfl (by simp [loopStart, hnow]) rfl
    (fun rs hrs => (hno rs hrs).imp (fun _ hh => hh.1))
  have hdecb : decideState lsb.Status.Conditions lsb.replsetsReady (replsOf cr).length
      clusterState = some (condType, state) := by
    rw [e1, e3]; exact hdec
  have hepb : connectionEndpoint env2 cr = EndpointResult.returned host eerr ecalls := by
    rw [connectionEndpoint_env env env2 cr hlist hsvc haddrs]; exact hep
  obtain ⟨err2, calls2, hw⟩ :=
    updateStatus_written_of env2 cr clusterState lsb condType state host eerr ecalls
      hloopb hdecb hepb
  refine ⟨_, err2, calls2, hw, ?_, ?_⟩
  · rw [hst, e1, hnow]
  · rw [hst, e1, hnow]
    simp [hprog]

theorem updateStatus_rollout_override_witness :
    updateStatus (constEnv exNow [exReadyPod] exSfsRolling) exCRFresh none
        mongoClusterState.clusterReady =
      Outcome.written { exStatusReady with State := AppState.AppStateInit } none
        [Call.listPods "ns" "c" "rs0", Call.getStatefulSet "ns" "c-rs0", Call.statusUpdate] ∧
    (∃ st2 err2 calls2,
      updateStatus exEnvReady exCRFresh none mongoClusterState.clusterReady =
        Outcome.written st2 err2 calls2 ∧
      st2.Conditions = exStatusReady.Conditions) := by
  have h := updateStatus_rollout_override (constEnv exNow [exReadyPod] exSfsRolling) exCRFresh
    mongoClusterState.clusterReady { exStatusReady with State := AppState.AppStateInit } none _
    rfl ⟨exReplset 1, by decide, exSfsRolling, rfl, by decide⟩
  obtain ⟨st2, err2, calls2, h1, h2, _⟩ := h.2 exEnvReady rfl rfl rfl rfl
    (fun rs _ => ⟨exSfsDone, rfl, by decide⟩)
  exact ⟨rfl, st2, err2, calls2, h1, h2⟩

/-! ## The cycle with an error -/

/-- C10 (as amended): on a call with a cycle error `msg` the status write is
always reached; when the prior overall state is not Error, the most recent
entry of the history is then an Error condition whose message is `msg`; when
the prior overall state is Error, the history is left as it was. -/
theorem updateStatus_error_recorded (env : Env) (cr : CR) (msg : String)
    (clusterState : mongoClusterState) :
    ∃ st err calls, updateStatus env cr (some msg) clusterState = Outcome.written st err calls ∧
      (cr.Status.State ≠ AppState.AppStateError →
        ∃ c, st.Conditions.getLast? = some c ∧ c.Type_ = ClusterConditionType.ClusterError ∧
          c.Message = msg) ∧
      (cr.Status.State = AppState.AppStateError → st.Conditions = cr.Status.Conditions) := by
  refine ⟨_, _, _, rfl, ?_, ?_⟩
  · intro hne
    refine ⟨reconcileErrorCondition env.now msg, ?_, rfl, rfl⟩
    simp [hne]
  · intro he
    simp [he]

/-- C10 (counterexample): the prior status is in state Error and its last
condition carries the error `a`; a call with the cycle error `b` leaves the
history as it was, so the most recent entry does not carry `b`. -/
theorem updateStatus_error_recorded_counterexample :
    updateStatus exEnvReady exCRFailed (some "b") mongoClusterState.clusterInit =
      Outcome.written
        { State := AppState.AppStateError, Message := "Error: b",
          Conditions := [reconcileErrorCondition 0 "a"], Replsets := some [], Host := "",
          ObservedGeneration := 0 }
        none [Call.statusUpdate] ∧
    ([reconcileErrorCondition 0 "a"].getLast?.map (fun c => c.Message)) = some "a" := by
  exact ⟨rfl, rfl⟩

/-- C2 (failing input): the prior status is in state Ready with a history of
twenty conditions; a call with a cycle error writes a history of twenty-one
conditions, one more than `maxStatusesQuantity`. -/
theorem updateStatus_error_exceeds_bound :
    exCRFull.Status.Conditions.length = maxStatusesQuantity ∧
    ∃ st err calls,
      updateStatus exEnvReady exCRFull (some "boom") mongoClusterState.clusterInit =
        Outcome.written st err calls ∧
      st.Conditions.length = maxStatusesQuantity + 1 := by
  refine ⟨by decide, _, _, _, rfl, ?_⟩
  decide

/-! ## Cycles in which no replica set changes state -/

theorem checkUpgrade_Status (env : Env) (cr : CR) (ls ls1 : LoopState) (rs : ReplsetSpec)
    (h : loopStateOf (checkUpgrade env cr ls rs) = some ls1) :
    ls1.Status = ls.Status ∧ ls1.clusterCondition = ls.clusterCondition ∧
      ls1.replsetsReady = ls.replsetsReady := by
  unfold checkUpgrade at h
  split_ifs at h
  · simp only [loopStateOf, Option.some.injEq] at h
    subst h
    exact ⟨rfl, rfl, rfl⟩
  · cases hu : upgradeInProgress env cr rs.Name <;>
      (simp only [hu, loopStateOf, Option.some.injEq] at h; subst h; exact ⟨rfl, rfl, rfl⟩)

/-- A turn of the loop for a replica set whose computed state is the stored
one adds no condition and leaves the stored state of every name as it was. -/
theorem replsetStep_unchanged (env : Env) (cr : CR) (ls ls1 : LoopState) (rs : ReplsetSpec)
    (hsame : groupState env cr rs = (currentOf ls.Status.Replsets rs.Name).Status)
    (h : loopStateOf (replsetStep env cr ls rs) = some ls1) :
    ls1.Status.Conditions = ls.Status.Conditions ∧
    ∀ k, (currentOf ls1.Status.Replsets k).Status = (currentOf ls.Status.Replsets k).Status := by
  cases hl : env.listPods cr.Namespace cr.Name rs.Name with
  | error e =>
    simp only [replsetStep, evalReplset, rsStatus, hl, loopStateOf, Option.some.injEq] at h
    subst h
    exact ⟨rfl, fun _ => rfl⟩
  | ok items =>
    cases hm : ls.Status.Replsets with
    | none => simp [replsetStep, evalReplset, rsStatus, hl, hm, mapSet, loopStateOf] at h
    | some kvs =>
      rw [groupState_of_list env cr rs items hl, hm] at hsame
      simp only [replsetStep, evalReplset_eq env cr ls rs items kvs hl hm] at h
      obtain ⟨hS, _, _⟩ := checkUpgrade_Status env cr _ ls1 rs h
      rw [hS]
      refine ⟨by simp [hsame], ?_⟩
      intro k
      simp only [currentOf_kvSet]
      split_ifs with hk
      · subst hk
        rw [carried_Status, hsame]
      · rfl

/-- A run of the loop in which the computed state of every replica set is the
stored one adds no condition. -/
theorem replsetLoop_unchanged (env : Env) (cr : CR) (repls : List ReplsetSpec)
    (ls ls2 : LoopState)
    (hsame : ∀ rs ∈ repls, groupState env cr rs = (currentOf ls.Status.Replsets rs.Name).Status)
    (h : loopStateOf (replsetLoop env cr repls ls) = some ls2) :
    ls2.Status.Conditions = ls.Status.Conditions := by
  induction repls generalizing ls with
  | nil =>
    simp only [replsetLoop, loopStateOf, Option.some.injEq] at h
    subst h
    rfl
  | cons rs rest ih =>
    have hrs := hsame rs (List.mem_cons_self _ _)
    unfold replsetLoop at h
    cases hs : replsetStep env cr ls rs with
    | panicked => simp [hs, loopStateOf] at h
    | failed l e =>
      simp only [hs, loopStateOf, Option.some.injEq] at h
      subst h
      exact (replsetStep_unchanged env cr ls l rs hrs (by simp [hs, loopStateOf])).1
    | finished ls1 =>
      simp only [hs] at h
      obtain ⟨hc, hk⟩ := replsetStep_unchanged env cr ls ls1 rs hrs (by simp [hs, loopStateOf])
      rw [ih ls1 (fun r hr => by rw [hk]; exact hsame r (List.mem_cons_of_mem _ hr)) h, hc]

/-! ## The invariant of the final append -/

theorem noAdjacentSameType_iff (conditions : List ClusterCondition) :
    noAdjacentSameType conditions = true ↔
      List.Chain' (fun a b : ClusterCondition => a.Type_ ≠ b.Type_) conditions := by
  induction conditions with
  | nil => simp [noAdjacentSameType]
  | cons a rest ih =>
    cases rest with
    | nil => simp [noAdjacentSameType]
    | cons b rest2 =>
      rw [List.chain'_cons, ← ih]
      simp [noAdjacentSameType]

theorem noAdjacentSameType_concat (conditions : List ClusterCondition) (c : ClusterCondition)
    (h : noAdjacentSameType conditions = true)
    (hlast : lastType conditions ≠ some c.Type_) :
    noAdjacentSameType (conditions ++ [c]) = true := by
  rw [noAdjacentSameType_iff] at *
  rw [List.chain'_append]
  refine ⟨h, by simp, ?_⟩
  intro x hx y hy
  simp only [List.head?_cons, Option.mem_def, Option.some.injEq] at hy
  simp only [Option.mem_def] at hx
  subst hy
  intro hxy
  apply hlast
  simp [lastType, hx, hxy]

theorem noAdjacentSameType_appendCondition (conditions : List ClusterCondition)
    (c : ClusterCondition) (h : noAdjacentSameType conditions = true) :
    noAdjacentSameType (appendCondition conditions c) = true := by
  unfold appendCondition
  cases hl : conditions.getLast? with
  | none =>
    have : conditions = [] := List.getLast?_eq_none_iff.mp hl
    subst this
    simp [noAdjacentSameType]
  | some last =>
    simp only
    split_ifs with ht
    · apply noAdjacentSameType_concat _ _ h
      simp only [lastType, hl, Option.map_some', ne_eq, Option.some.injEq]
      exact ht
    · exact h

theorem noAdjacentSameType_trimConditions (conditions : List ClusterCondition)
    (h : noAdjacentSameType conditions = true) :
    noAdjacentSameType (trimConditions conditions) = true := by
  unfold trimConditions
  split_ifs
  · rw [noAdjacentSameType_iff] at *
    exact List.Chain'.drop h _
  · exact h

theorem appendCondition_cases (conditions : List ClusterCondition) (c : ClusterCondition) :
    appendCondition conditions c = conditions ∨
      appendCondition conditions c = conditions ++ [c] := by
  unfold appendCondition
  cases conditions.getLast? with
  | none => exact Or.inr rfl
  | some last =>
    simp only
    split_ifs
    · exact Or.inr rfl
    · exact Or.inl rfl

theorem noAdjacentSameType_concat_iff (conditions : List ClusterCondition)
    (c : ClusterCondition) :
    noAdjacentSameType (conditions ++ [c]) = true ↔
      noAdjacentSameType conditions = true ∧ lastType conditions ≠ some c.Type_ := by
  constructor
  · intro h
    rw [noAdjacentSameType_iff, List.chain'_append] at h
    obtain ⟨h1, _, h3⟩ := h
    refine ⟨(noAdjacentSameType_iff _).mpr h1, ?_⟩
    cases hl : conditions.getLast? with
    | none => simp [lastType, hl]
    | some last =>
      have := h3 last (by simp [hl]) c (by simp)
      simpa [lastType, hl] using this
  · intro h
    exact noAdjacentSameType_concat _ _ h.1 h.2

theorem noAdjacentSameType_of_appendCondition (conditions : List ClusterCondition)
    (c : ClusterCondition) (h : noAdjacentSameType (appendCondition conditions c) = true) :
    noAdjacentSameType conditions = true := by
  rcases appendCondition_cases conditions c with ha | ha
  · rw [ha] at h
    exact h
  · rw [ha] at h
    exact ((noAdjacentSameType_concat_iff _ _).mp h).1

/-- A trimmed history shorter than the bound was not cut. -/
theorem trimConditions_of_short (conditions : List ClusterCondition)
    (h : (trimConditions conditions).length < maxStatusesQuantity) :
    trimConditions conditions = conditions := by
  unfold trimConditions at h ⊢
  split_ifs at h ⊢ with hlen
  · rw [List.length_drop] at h
    omega
  · rfl

theorem conditionsAfterLoop_of_state (env : Env) (cr : CR) (ls : LoopState)
    (h : loopStateOf (replsetLoop env cr (replsOf cr) (loopStart env cr)) = some ls) :
    conditionsAfterLoop env cr = ls.Status.Conditions := by
  unfold conditionsAfterLoop
  cases hl : replsetLoop env cr (replsOf cr) (loopStart env cr) with
  | panicked => simp [hl, loopStateOf] at h
  | failed l e =>
    simp only [hl, loopStateOf, Option.some.injEq] at h
    simp [h]
  | finished l =>
    simp only [hl, loopStateOf, Option.some.injEq] at h
    simp [h]

/-- C1 (as amended): let the prior history have no two adjacent conditions of
the same type, and let `updateStatus` return. On a cycle without error only
the final append compares types, and the trim keeps a run of neighbours: the
history left has no two adjacent conditions of the same type whenever the
history as the loop over the replica sets leaves it, with the conditions added
for the replica sets that changed state, has none; and conversely when the
history left is shorter than the bound, so that the trim cut nothing. On a
cycle with an error the history left has no two adjacent conditions of the
same type exactly when the prior overall state is Error (nothing is added) or
the most recent condition is not an Error condition. -/
theorem updateStatus_no_adjacent (env : Env) (cr : CR) (reconcileErr : Option String)
    (clusterState : mongoClusterState) (st : Status)
    (h : statusLeft (updateStatus env cr reconcileErr clusterState) = some st)
    (hprior : noAdjacentSameType cr.Status.Conditions = true) :
    (reconcileErr = none →
      (noAdjacentSameType (conditionsAfterLoop env cr) = true →
        noAdjacentSameType st.Conditions = true) ∧
      (st.Conditions.length < maxStatusesQuantity →
        noAdjacentSameType st.Conditions = true →
        noAdjacentSameType (conditionsAfterLoop env cr) = true)) ∧
    (reconcileErr ≠ none →
      (noAdjacentSameType st.Conditions = true ↔
        (cr.Status.State = AppState.AppStateError ∨
          lastType cr.Status.Conditions ≠ some ClusterConditionType.ClusterError))) := by
  cases reconcileErr with
  | some msg =>
    refine ⟨fun hne => (by cases hne), fun _ => ?_⟩
    simp only [updateStatus_error_eq, updateStatusOnError, statusLeft, Option.some.injEq] at h
    subst h
    by_cases hs : cr.Status.State = AppState.AppStateError
    · simp only [hs, ne_eq, not_true_eq_false, if_false, true_or, iff_true]
      exact hprior
    · simp only [ne_eq, hs, not_false_eq_true, if_true, false_or]
      rw [noAdjacentSameType_concat_iff]
      simp only [hprior, true_and, reconcileErrorCondition]
  | none =>
    refine ⟨fun _ => ?_, fun hne => absurd rfl hne⟩
    unfold updateStatus at h
    simp only at h
    cases hl : replsetLoop env cr (replsOf cr) (loopStart env cr) with
    | panicked => simp [hl, statusLeft] at h
    | failed l e =>
      simp only [hl, statusLeft, Option.some.injEq] at h
      subst h
      rw [conditionsAfterLoop_of_state env cr l (by simp [hl, loopStateOf])]
      exact ⟨fun hh => hh, fun _ hh => hh⟩
    | finished ls =>
      rw [conditionsAfterLoop_of_state env cr ls (by simp [hl, loopStateOf])]
      simp only [hl, updateStatusAfterLoop] at h
      cases hd : decideState ls.Status.Conditions ls.replsetsReady (replsOf cr).length
          clusterState with
      | none => simp [hd, statusLeft] at h
      | some p =>
        obtain ⟨condType, state⟩ := p
        simp only [hd] at h
        cases he : connectionEndpoint env cr with
        | panicked c => simp [he, statusLeft] at h
        | returned host eerr ecalls =>
          simp only [he, statusLeft, Option.some.injEq] at h
          subst h
          constructor
          · intro hloop
            apply noAdjacentSameType_trimConditions
            exact noAdjacentSameType_appendCondition _ _ hloop
          · intro hshort hres
            simp only at hshort hres
            rw [trimConditions_of_short _ hshort] at hres
            exact noAdjacentSameType_of_appendCondition _ _ hres

theorem updateStatus_no_adjacent_witness :
    noAdjacentSameType exCRSettled.Status.Conditions = true ∧
    (conditionsAfterLoop (constEnv exNow [exUnschedPod] exSfsDone) exCRSettled).map
        (fun c => c.Type_) =
      [ClusterConditionType.ClusterReady, ClusterConditionType.ClusterError] ∧
    noAdjacentSameType
      (conditionsAfterLoop (constEnv exNow [exUnschedPod] exSfsDone) exCRSettled) = true ∧
    ∃ st, statusLeft (updateStatus (constEnv exNow [exUnschedPod] exSfsDone) exCRSettled none
        mongoClusterState.clusterInit) = some st ∧
      st.Conditions.map (fun c => c.Type_) =
        [ClusterConditionType.ClusterReady, ClusterConditionType.ClusterError,
         ClusterConditionType.ClusterInit] ∧
      noAdjacentSameType st.Conditions = true :=
  ⟨by decide, by decide, by decide, _, rfl, by decide,
    ((updateStatus_no_adjacent (constEnv exNow [exUnschedPod] exSfsDone) exCRSettled none
      mongoClusterState.clusterInit _ rfl (by decide)).1 rfl).1 (by decide)⟩

/-- C1 (counterexample): the prior history is the single Init condition; the
replica set `rs0` has no entry yet and no pod, so its state goes from unset to
Init and the loop adds the Init condition it carries; the history left is two
Init conditions in a row. -/
theorem updateStatus_no_adjacent_counterexample :
    noAdjacentSameType exCRStarting.Status.Conditions = true ∧
    ∃ st err calls,
      updateStatus (constEnv exNow [] exSfsDone) exCRStarting none
        mongoClusterState.clusterInit = Outcome.written st err calls ∧
      st.Conditions.map (fun c => c.Type_) =
        [ClusterConditionType.ClusterInit, ClusterConditionType.ClusterInit] ∧
      noAdjacentSameType st.Conditions = false := by
  refine ⟨by decide, _, _, _, rfl, by decide, by decide⟩

/-! ## One replica set in the error state -/

/-- The trim keeps the newest entries: whatever stands among the last
`maxStatusesQuantity` conditions is still there. -/
theorem mem_trimConditions (older newest : List ClusterCondition)
    (hlen : newest.length ≤ maxStatusesQuantity) (c : ClusterCondition) (hc : c ∈ newest) :
    c ∈ trimConditions (older ++ newest) := by
  unfold trimConditions
  split_ifs with h
  · rw [List.drop_append_of_le_length]
    · exact List.mem_append_right _ hc
    · simp only [List.length_append] at h ⊢
      omega
  · exact List.mem_append_right _ hc

/-- C9 (as amended): one replica set is evaluated, one of its pods has been
unschedulable for more than a minute (`d` is the last such condition), the
ready count differs from the desired size, there is no cycle error and no
rollout, and the cycle ends with the status write. Then the replica set is
stored in state Error; the overall state is Error for every desired signal
other than `clusterInit`; and when the replica set was not stored in state
Error before, the overall state is Init for the signal `clusterInit`, and the
history holds an Error condition whose message is the name of the replica
set, a colon, and a text that starts with the message of `d`. -/
theorem updateStatus_group_error (env : Env) (cr : CR) (clusterState : mongoClusterState)
    (st : Status) (err : Option String) (calls : List Call) (rs : ReplsetSpec)
    (items : List Pod) (d : PodCondition)
    (h : updateStatus env cr none clusterState = Outcome.written st err calls)
    (hone : replsOf cr = [rs])
    (hlist : env.listPods cr.Namespace cr.Name rs.Name = Except.ok items)
    (hlast : lastUnschedulable env.now items = some d)
    (hsize : rs.Size ≠ (readyConditions items : Int))
    (hno : ¬ rollout env cr rs) :
    (∃ s, mapGet st.Replsets rs.Name = some s ∧ s.Status = AppState.AppStateError) ∧
    (clusterState ≠ mongoClusterState.clusterInit → st.State = AppState.AppStateError) ∧
    ((currentOf cr.Status.Replsets rs.Name).Status ≠ AppState.AppStateError →
      (clusterState = mongoClusterState.clusterInit → st.State = AppState.AppStateInit) ∧
      ∃ c ∈ st.Conditions, c.Type_ = ClusterConditionType.ClusterError ∧
        ∃ rest, c.Message = rs.Name ++ ": " ++ (d.Message ++ rest)) := by
  obtain ⟨ls, condType, state, host, eerr, ecalls, hloop, hdec, _, hst, _, _⟩ :=
    updateStatus_written_inv env cr clusterState st err calls h
  -- the state computed for the replica set
  obtain ⟨_, _, _, _, hstatus, rest, hmsg⟩ := rsStatusOf_fields env.now rs items
  rw [if_neg hsize, hlast] at hstatus
  simp only [Option.isSome_some, if_true] at hstatus
  rw [hlast] at hmsg
  simp only at hmsg
  have hgs : groupState env cr rs = AppState.AppStateError := by
    rw [groupState_of_list env cr rs items hlist, hstatus]
  -- the flag and the counter after the loop
  have hprog : ls.inProgress = false := by
    cases hp : ls.inProgress with
    | false => rfl
    | true =>
      rcases replsetLoop_inProgress_of_true env cr (replsOf cr) (loopStart env cr) ls hloop hp
        with h0 | ⟨r, hr, hroll⟩
      · simp [loopStart] at h0
      · rw [hone] at hr
        simp only [List.mem_singleton] at hr
        subst hr
        exact absurd hroll hno
  have hcount := replsetLoop_replsetsReady env cr (replsOf cr) (loopStart env cr) ls hloop
  rw [hone] at hcount
  simp only [loopStart, zero_add, readyGroups, List.countP_cons, List.countP_nil, hgs] at hcount
  have hcount0 : ls.replsetsReady = 0 := by simpa using hcount
  have hstate : st.State = state := by
    rw [hst]
    simp [hprog]
  rw [hcount0, hone] at hdec
  -- the single turn of the loop
  rw [hone] at hloop
  obtain ⟨ls1, hs, hl⟩ := replsetLoop_cons_finished env cr rs [] (loopStart env cr) ls hloop
  simp only [replsetLoop, LoopResult.finished.injEq] at hl
  subst hl
  obtain ⟨items2, kvs, hlist2, hmap, hmap1, hconds, _⟩ :=
    replsetStep_facts env cr (loopStart env cr) ls1 rs hs
  rw [hlist] at hlist2
  simp only [Except.ok.injEq] at hlist2
  subst hlist2
  have hmap0 : cr.Status.Replsets = some kvs := hmap
  refine ⟨?_, ?_, ?_⟩
  · refine ⟨carried (rsStatusOf env.now rs items) (currentOf (some kvs) rs.Name), ?_, ?_⟩
    · rw [hst]
      simp only [hmap1, mapGet, kvGet_kvSet, if_true]
    · rw [carried_Status, hstatus]
  · intro hne
    rcases decideState_some _ _ _ _ _ _ hdec with ⟨a, _⟩ | ⟨_, _, _, c, _, _⟩ | ⟨_, _, _, _, e⟩
    · simp at a
    · exact absurd c hne
    · rw [hstate, e]
  · intro hprev
    rw [hmap0] at hprev
    have hchanged : (rsStatusOf env.now rs items).Status ≠ (currentOf (some kvs) rs.Name).Status := by
      rw [hstatus]
      exact fun hh => hprev hh.symm
    rw [if_pos hchanged] at hconds
    have htc : transitionCondition env.now rs.Name
        (carried (rsStatusOf env.now rs items) (currentOf (some kvs) rs.Name))
        (currentOf (some kvs) rs.Name).Initialized (loopStart env cr).clusterCondition =
        rsErrorCondition env.now rs.Name (rsStatusOf env.now rs items).Message := by
      simp [transitionCondition, carried, hstatus]
    rw [htc] at hconds
    constructor
    · intro hinit
      rcases decideState_some _ _ _ _ _ _ hdec with ⟨a, _⟩ | ⟨_, _, _, _, _, e⟩ | ⟨_, _, b, _, _⟩
      · simp at a
      · rw [hstate, e]
      · exfalso
        apply b
        refine ⟨?_, hinit⟩
        rw [hconds]
        simp [lastType, rsErrorCondition]
    · refine ⟨rsErrorCondition env.now rs.Name (rsStatusOf env.now rs items).Message, ?_, rfl,
        rest, ?_⟩
      · rw [hst]
        simp only
        rcases appendCondition_cases ls1.Status.Conditions (decisionCondition env.now condType)
          with ha | ha
        · rw [ha, hconds]
          exact mem_trimConditions _ _ (by simp [maxStatusesQuantity]) _ (List.mem_singleton.mpr rfl)
        · rw [ha, hconds, List.append_assoc]
          exact mem_trimConditions _ _ (by simp [maxStatusesQuantity]) _
            (List.mem_cons_self _ _)
      · simp only [rsErrorCondition, hmsg]

theorem updateStatus_group_error_witness :
    ∃ st err calls,
      updateStatus (constEnv exNow [exUnschedPod] exSfsDone) exCRStarting none
        mongoClusterState.clusterReady = Outcome.written st err calls ∧
      (∃ s, mapGet st.Replsets "rs0" = some s ∧ s.Status = AppState.AppStateError) ∧
      st.State = AppState.AppStateError ∧
      ∃ c ∈ st.Conditions, c.Type_ = ClusterConditionType.ClusterError ∧
        ∃ rest, c.Message = "rs0" ++ ": " ++ (exUnschedCond.Message ++ rest) := by
  have h := updateStatus_group_error (constEnv exNow [exUnschedPod] exSfsDone) exCRStarting
    mongoClusterState.clusterReady _ _ _ (exReplset 3) [exUnschedPod] exUnschedCond rfl rfl rfl
    (by decide) (by decide)
    (constEnv_no_rollout exNow [exUnschedPod] exSfsDone exCRStarting (by decide) (exReplset 3))
  exact ⟨_, _, _, rfl, h.1, h.2.1 (by decide), (h.2.2 (by decide)).2⟩

/-- C9 (counterexample): the pod of the only replica set has been
unschedulable for five minutes, there is no cycle error and no rollout, the
desired signal is `clusterInit`: the replica set is stored in state Error and
the overall state written is Init, not Error. -/
theorem updateStatus_group_error_counterexample :
    lastUnschedulable exNow [exUnschedPod] = some exUnschedCond ∧
    ∃ st err calls,
      updateStatus (constEnv exNow [exUnschedPod] exSfsDone) exCRStarting none
        mongoClusterState.clusterInit = Outcome.written st err calls ∧
      (∃ s, mapGet st.Replsets "rs0" = some s ∧ s.Status = AppState.AppStateError) ∧
      st.State = AppState.AppStateInit := by
  refine ⟨by decide, _, _, _, rfl, ⟨_, rfl, rfl⟩, rfl⟩

/-! ## Running the cycle again -/

/-- The calls logged by a finished turn of the loop. -/
theorem replsetStep_calls (env : Env) (cr : CR) (ls ls2 : LoopState) (rs : ReplsetSpec)
    (h : replsetStep env cr ls rs = LoopResult.finished ls2) :
    ls2.calls = ls.calls ++ [Call.listPods cr.Namespace cr.Name rs.Name] ++
      (if ls.inProgress then []
       else [Call.getStatefulSet cr.Namespace (cr.Name ++ "-" ++ rs.Name)]) := by
  obtain ⟨ls1, he, hc⟩ := replsetStep_finished env cr ls ls2 rs h
  obtain ⟨items, kvs, hlist, hmap⟩ := evalReplset_finished_inv env cr ls ls1 rs he
  rw [evalReplset_eq env cr ls rs items kvs hlist hmap] at he
  simp only [LoopResult.finished.injEq] at he
  subst he
  unfold checkUpgrade at hc
  simp only at hc
  cases hp : ls.inProgress with
  | true =>
    simp only [hp, if_true, LoopResult.finished.injEq] at hc
    subst hc
    simp
  | false =>
    simp only [hp, Bool.false_eq_true, if_false] at hc
    cases hu : upgradeInProgress env cr rs.Name with
    | error e => simp [hu] at hc
    | ok b =>
      simp only [hu, LoopResult.finished.injEq] at hc
      subst hc
      simp

/-- The loop reads the name and the namespace of the resource only. -/
theorem replsetLoop_cr (env : Env) (cr cr2 : CR) (repls : List ReplsetSpec) (ls : LoopState)
    (hname : cr2.Name = cr.Name) (hns : cr2.Namespace = cr.Namespace) :
    replsetLoop env cr2 repls ls = replsetLoop env cr repls ls := by
  induction repls generalizing ls with
  | nil => rfl
  | cons rs rest ih =>
    have hstep : ∀ l, replsetStep env cr2 l rs = replsetStep env cr l rs := by
      intro l
      simp only [replsetStep, evalReplset, checkUpgrade, upgradeInProgress, hname, hns]
    simp only [replsetLoop, hstep, ih]

/-- With replica sets of distinct names, after the loop the entry of every
replica set agrees with the status computed for it, flags apart. -/
theorem replsetLoop_map_fixed (env : Env) (cr : CR) (repls : List ReplsetSpec)
    (ls ls2 : LoopState) (h : replsetLoop env cr repls ls = LoopResult.finished ls2)
    (hnd : (repls.map (fun rs => rs.Name)).Nodup) :
    ∀ rs ∈ repls, ∀ items, env.listPods cr.Namespace cr.Name rs.Name = Except.ok items →
      ∃ e, mapGet ls2.Status.Replsets rs.Name = some e ∧
        carried (rsStatusOf env.now rs items) e = e := by
  induction repls generalizing ls with
  | nil => intro rs hrs; cases hrs
  | cons r rest ih =>
    obtain ⟨ls1, hs, hl⟩ := replsetLoop_cons_finished env cr r rest ls ls2 h
    obtain ⟨items0, kvs, hlist0, hmap, hmap1, _⟩ := replsetStep_facts env cr ls ls1 r hs
    simp only [List.map_cons, List.nodup_cons, List.mem_map, not_exists, not_and] at hnd
    intro rs hrs items hitems
    rcases List.mem_cons.mp hrs with rfl | hrs
    · rw [hlist0] at hitems
      simp only [Except.ok.injEq] at hitems
      subst hitems
      refine ⟨carried (rsStatusOf env.now rs items0) (currentOf (some kvs) rs.Name), ?_, rfl⟩
      rw [replsetLoop_map_other env cr rest ls1 ls2 hl rs.Name (fun r2 hr2 => hnd.1 r2 hr2),
        hmap1]
      simp only [mapGet, kvGet_kvSet, if_true]
    · exact ih ls1 hl hnd.2 rs hrs items hitems

/-- A run of the loop from a map that already agrees with the computed
statuses changes nothing in the status, and follows the given finished run in
its counter, its flag and its calls. -/
theorem replsetLoop_fixed (env : Env) (cr : CR) (repls : List ReplsetSpec)
    (ls ls2 lsb : LoopState) (h : replsetLoop env cr repls ls = LoopResult.finished ls2)
    (hfix : ∀ rs ∈ repls, ∀ items, env.listPods cr.Namespace cr.Name rs.Name = Except.ok items →
      ∃ e, mapGet lsb.Status.Replsets rs.Name = some e ∧
        carried (rsStatusOf env.now rs items) e = e)
    (hP : lsb.inProgress = ls.inProgress) (hR : lsb.replsetsReady = ls.replsetsReady)
    (hcalls : lsb.calls = ls.calls) :
    ∃ lsb2, replsetLoop env cr repls lsb = LoopResult.finished lsb2 ∧
      lsb2.Status = lsb.Status ∧ lsb2.inProgress = ls2.inProgress ∧
      lsb2.replsetsReady = ls2.replsetsReady ∧ lsb2.calls = ls2.calls := by
  induction repls generalizing ls lsb with
  | nil =>
    simp only [replsetLoop, LoopResult.finished.injEq] at h
    subst h
    exact ⟨lsb, rfl, rfl, hP, hR, hcalls⟩
  | cons rs rest ih =>
    obtain ⟨ls1, hs, hl⟩ := replsetLoop_cons_finished env cr rs rest ls ls2 h
    obtain ⟨items, kvs, hlist, hmap, _, _, _, hR1, _, _, _, _, hP1, hP2⟩ :=
      replsetStep_facts env cr ls ls1 rs hs
    have hc1 := replsetStep_calls env cr ls ls1 rs hs
    obtain ⟨e, he, hfixe⟩ := hfix rs (List.mem_cons_self _ _) items hlist
    -- the map of the second run is allocated
    obtain ⟨kvsb, hmapb⟩ : ∃ kvsb, lsb.Status.Replsets = some kvsb := by
      cases hm : lsb.Status.Replsets with
      | none => simp [hm, mapGet] at he
      | some kvsb => exact ⟨kvsb, rfl⟩
    have hget : kvGet kvsb rs.Name = some e := by simpa [hmapb, mapGet] using he
    have hcur : currentOf (some kvsb) rs.Name = e := by simp [currentOf, mapGet, hget]
    -- the stateful set lookup of the second run, when it is made
    have hsfs : ∃ sfs, lsb.inProgress = true ∨
        env.getStatefulSet cr.Namespace (cr.Name ++ "-" ++ rs.Name) = Except.ok sfs := by
      cases hp : ls.inProgress with
      | true => exact ⟨⟨0, 0⟩, Or.inl (by rw [hP, hp])⟩
      | false =>
        obtain ⟨sfs, hsfs, _⟩ := hP2 hp
        exact ⟨sfs, Or.inr hsfs⟩
    obtain ⟨lsb1, hsb⟩ : ∃ lsb1, replsetStep env cr lsb rs = LoopResult.finished lsb1 := by
      obtain ⟨sfs, hor⟩ := hsfs
      simp only [replsetStep, evalReplset_eq env cr lsb rs items kvsb hlist hmapb, checkUpgrade,
        upgradeInProgress]
      rcases hor with hp | hsfs
      · simp only [hp, if_true]
        exact ⟨_, rfl⟩
      · simp only [hsfs]
        split_ifs <;> exact ⟨_, rfl⟩
    obtain ⟨b1, _, b3⟩ := replsetStep_core env cr lsb lsb1 rs items kvsb hlist hmapb hsb
    obtain ⟨_, _, _, _, _, _, _, _, _, _, _, _, hPb1, hPb2⟩ :=
      replsetStep_facts env cr lsb lsb1 rs hsb
    have hcb := replsetStep_calls env cr lsb lsb1 rs hsb
    have hst : (rsStatusOf env.now rs items).Status = e.Status := by
      have := congrArg ReplsetStatus.Status hfixe
      simpa [carried] using this
    have hS1 : lsb1.Status = lsb.Status := by
      rw [b1, hcur, hfixe, kvSet_same kvsb rs.Name e hget, if_neg (not_not.mpr hst), ← hmapb]
    have hR1b : lsb1.replsetsReady = ls1.replsetsReady := by rw [b3, hR1, hR]
    have hP1b : lsb1.inProgress = ls1.inProgress := by
      cases hp : ls.inProgress with
      | true => rw [hP1 hp, hPb1 (by rw [hP, hp])]
      | false =>
        obtain ⟨sfs, hsfs1, hd1⟩ := hP2 hp
        obtain ⟨sfs2, hsfs2, hd2⟩ := hPb2 (by rw [hP, hp])
        rw [hsfs1] at hsfs2
        cases hsfs2
        rw [hd1, hd2]
    have hC1b : lsb1.calls = ls1.calls := by rw [hcb, hc1, hcalls, hP]
    obtain ⟨lsb2, hlb, e1, e2, e3, e4⟩ := ih ls1 lsb1 hl
      (fun r hr its hits => by rw [hS1]; exact hfix r (List.mem_cons_of_mem _ hr) its hits)
      hP1b hR1b hC1b
    refine ⟨lsb2, ?_, e1.trans hS1, e2, e3, e4⟩
    simp only [replsetLoop, hsb]
    exact hlb

/-- The decision is stable: taken again on a history whose last condition has
the type just decided, it is the same, unless it was the Error decision under
the signal `clusterInit`. -/
theorem decideState_stable (conditions conditions2 : List ClusterCondition)
    (replsetsReady nrepls : Nat) (clusterState : mongoClusterState)
    (condType : ClusterConditionType) (state : AppState)
    (h : decideState conditions replsetsReady nrepls clusterState = some (condType, state))
    (hsig : ¬ (clusterState = mongoClusterState.clusterInit ∧
      condType = ClusterConditionType.ClusterError))
    (hlast : lastType conditions2 = some condType) :
    decideState conditions2 replsetsReady nrepls clusterState = some (condType, state) := by
  obtain ⟨last, hl, ht⟩ : ∃ last, conditions2.getLast? = some last ∧ last.Type_ = condType := by
    cases hg : conditions2.getLast? with
    | none => simp [lastType, hg] at hlast
    | some last => exact ⟨last, rfl, by simpa [lastType, hg] using hlast⟩
  rcases decideState_some _ _ _ _ _ _ h with ⟨a, b, c, d⟩ | ⟨a, _, _, b, c, d⟩ | ⟨a, _, _, c, d⟩
  · simp [decideState, a, b, c, d]
  · subst c d
    simp [decideState, a, hl, ht, b]
  · subst c d
    have hne : clusterState ≠ mongoClusterState.clusterInit := fun hh => hsig ⟨hh, rfl⟩
    simp [decideState, a, hl, hne]

theorem appendCondition_same (conditions : List ClusterCondition) (c : ClusterCondition)
    (h : lastType conditions = some c.Type_) : appendCondition conditions c = conditions := by
  unfold appendCondition
  cases hg : conditions.getLast? with
  | none => simp [lastType, hg] at h
  | some last =>
    have : last.Type_ = c.Type_ := by simpa [lastType, hg] using h
    simp [this]

/-- The outcome of a cycle without error, from its three stages, with the
error returned and the calls made. -/
theorem updateStatus_written_eq (env : Env) (cr : CR) (clusterState : mongoClusterState)
    (ls : LoopState) (condType : ClusterConditionType) (state : AppState) (host : String)
    (eerr : Option String) (ecalls : List Call) (st : Status)
    (hloop : replsetLoop env cr (replsOf cr) (loopStart env cr) = LoopResult.finished ls)
    (hdec : decideState ls.Status.Conditions ls.replsetsReady (replsOf cr).length clusterState =
      some (condType, state))
    (hep : connectionEndpoint env cr = EndpointResult.returned host eerr ecalls)
    (hst : st = { ls.Status with
          State := if ls.inProgress then AppState.AppStateInit else state
          Conditions := trimConditions
            (appendCondition ls.Status.Conditions (decisionCondition env.now condType))
          ObservedGeneration := cr.Generation
          Host := host }) :
    updateStatus env cr none clusterState =
      Outcome.written st (writeStatus env st).1 (ls.calls ++ ecalls ++ (writeStatus env st).2) := by
  subst hst
  simp only [updateStatus, hloop, updateStatusAfterLoop, hdec, hep]

/-- C3 (as amended): when a cycle without error ends with the status write of
`st1`, the names of the evaluated replica sets are pairwise distinct, and the
cycle did not take the Error decision under the signal `clusterInit` (the last
condition of `st1` is not an Error condition when the signal is
`clusterInit`), then the same cycle run again from `st1`, in the same cluster
and with the same clock and signal, ends in the same way: it writes `st1`
again, adds no condition, makes the same calls and returns the same error. -/
theorem updateStatus_idempotent (env : Env) (cr : CR) (clusterState : mongoClusterState)
    (st1 : Status) (err1 : Option String) (calls1 : List Call)
    (h : updateStatus env cr none clusterState = Outcome.written st1 err1 calls1)
    (hnames : ((replsOf cr).map (fun rs => rs.Name)).Nodup)
    (hsig : ¬ (clusterState = mongoClusterState.clusterInit ∧
      lastType st1.Conditions = some ClusterConditionType.ClusterError)) :
    updateStatus env { cr with Status := st1 } none clusterState =
      Outcome.written st1 err1 calls1 := by
  obtain ⟨ls, condType, state, host, eerr, ecalls, hloop, hdec, hep, hst, herr, hcalls⟩ :=
    updateStatus_written_inv env cr clusterState st1 err1 calls1 h
  obtain ⟨_, fmsg, _, _, _⟩ := replsetLoop_frame env cr (replsOf cr) (loopStart env cr) ls hloop
  have hmsg : st1.Message = "" := by rw [hst]; exact fmsg
  have hlast1 : lastType st1.Conditions = some condType := by
    rw [hst]
    simp only [lastType_trimConditions, lastType_appendCondition, decisionCondition]
  have hlen1 : st1.Conditions.length ≤ maxStatusesQuantity := by
    rw [hst]
    exact trimConditions_length _
  have hmap1 : st1.Replsets = ls.Status.Replsets := by rw [hst]
  have hstart : (loopStart env { cr with Status := st1 }).Status = st1 := by
    cases st1
    simp only at hmsg
    subst hmsg
    rfl
  have hfix := replsetLoop_map_fixed env cr (replsOf cr) (loopStart env cr) ls hloop hnames
  obtain ⟨lsb, hloopb, e1, e2, e3, e4⟩ := replsetLoop_fixed env cr (replsOf cr)
    (loopStart env cr) ls (loopStart env { cr with Status := st1 }) hloop
    (fun rs hrs items hitems => by rw [hstart, hmap1]; exact hfix rs hrs items hitems)
    rfl rfl rfl
  rw [hstart] at e1
  have hloop2 : replsetLoop env { cr with Status := st1 } (replsOf { cr with Status := st1 })
      (loopStart env { cr with Status := st1 }) = LoopResult.finished lsb := by
    rw [replsetLoop_cr env cr { cr with Status := st1 } _ _ rfl rfl]
    exact hloopb
  have hsig2 : ¬ (clusterState = mongoClusterState.clusterInit ∧
      condType = ClusterConditionType.ClusterError) := by
    rintro ⟨a, b⟩
    exact hsig ⟨a, by rw [hlast1, b]⟩
  have hdec2 : decideState lsb.Status.Conditions lsb.replsetsReady
      (replsOf { cr with Status := st1 }).length clusterState = some (condType, state) := by
    rw [e1, e3]
    exact decideState_stable _ _ _ _ _ _ _ hdec hsig2 hlast1
  have hw := updateStatus_written_eq env { cr with Status := st1 } clusterState lsb condType
    state host eerr ecalls st1 hloop2 hdec2 hep ?_
  · rw [hw, e4, herr, hcalls]
  · rw [e1, e2, appendCondition_same st1.Conditions _ (by simpa [decisionCondition] using hlast1),
      trimConditions_of_le _ hlen1]
    rw [hst]

theorem updateStatus_idempotent_witness :
    updateStatus exEnvReady exCRFresh none mongoClusterState.clusterReady =
      Outcome.written exStatusReady none
        [Call.listPods "ns" "c" "rs0", Call.getStatefulSet "ns" "c-rs0", Call.statusUpdate] ∧
    ((replsOf exCRFresh).map (fun rs => rs.Name)).Nodup ∧
    updateStatus exEnvReady { exCRFresh with Status := exStatusReady } none
        mongoClusterState.clusterReady =
      Outcome.written exStatusReady none
        [Call.listPods "ns" "c" "rs0", Call.getStatefulSet "ns" "c-rs0", Call.statusUpdate] :=
  ⟨rfl, by decide,
    updateStatus_idempotent exEnvReady exCRFresh mongoClusterState.clusterReady exStatusReady
      none _ rfl (by decide) (by decide)⟩

/-- C3 (counterexample): the prior status is settled (state Ready, last
condition Ready, the replica set stored as ready) and the desired signal is
`clusterInit`. The first cycle writes state Error and adds an Error condition;
the same cycle run again from that status writes state Init and adds an Init
condition. Second part: with the name `rs0` used by two replica sets of sizes
1 and 2, the second run adds two conditions. -/
theorem updateStatus_idempotent_counterexample :
    (∃ st1 err1 calls1 st2 err2 calls2,
      updateStatus exEnvReady exCRSettled none mongoClusterState.clusterInit =
        Outcome.written st1 err1 calls1 ∧
      updateStatus exEnvReady { exCRSettled with Status := st1 } none
        mongoClusterState.clusterInit = Outcome.written st2 err2 calls2 ∧
      st1.State = AppState.AppStateError ∧ st2.State = AppState.AppStateInit ∧
      st1.Conditions.map (fun c => c.Type_) =
        [ClusterConditionType.ClusterReady, ClusterConditionType.ClusterError] ∧
      st2.Conditions.map (fun c => c.Type_) =
        [ClusterConditionType.ClusterReady, ClusterConditionType.ClusterError,
         ClusterConditionType.ClusterInit]) ∧
    (∃ st1 err1 calls1 st2 err2 calls2,
      updateStatus exEnvReady exCRTwice none mongoClusterState.clusterInit =
        Outcome.written st1 err1 calls1 ∧
      updateStatus exEnvReady { exCRTwice with Status := st1 } none
        mongoClusterState.clusterInit = Outcome.written st2 err2 calls2 ∧
      st1.Conditions.length = 2 ∧ st2.Conditions.length = 4) := by
  refine ⟨⟨_, _, _, _, _, _, rfl, rfl, rfl, rfl, rfl, rfl⟩, ⟨_, _, _, _, _, _, rfl, rfl, rfl, rfl⟩⟩

/-! ## The cycle with an error, the writer, the endpoint -/

/-- C11: on a call with a cycle error `msg`, `updateStatus` sets the overall
state to Error and the message to `Error: ` followed by `msg`, makes no call
other than the status write (no pod listing, no stateful set lookup), leaves
the map of replica sets, the host and the observed generation as they were,
leaves the history as it was or with one entry added at its end, and returns
what `writeStatus` returns. -/
theorem updateStatus_error_frame (env : Env) (cr : CR) (msg : String)
    (clusterState : mongoClusterState) :
    ∃ st, updateStatus env cr (some msg) clusterState =
        Outcome.written st (writeStatus env st).1 (writeStatus env st).2 ∧
      st.State = AppState.AppStateError ∧ st.Message = "Error: " ++ msg ∧
      st.Replsets = cr.Status.Replsets ∧ st.Host = cr.Status.Host ∧
      st.ObservedGeneration = cr.Status.ObservedGeneration ∧
      (st.Conditions = cr.Status.Conditions ∨
        ∃ c, st.Conditions = cr.Status.Conditions ++ [c]) ∧
      (∀ call ∈ (writeStatus env st).2, call = Call.statusUpdate ∨ call = Call.update) := by
  refine ⟨_, rfl, rfl, rfl, rfl, rfl, rfl, ?_, ?_⟩
  · by_cases hs : cr.Status.State = AppState.AppStateError
    · exact Or.inl (by simp [hs])
    · exact Or.inr ⟨reconcileErrorCondition env.now msg, by simp [hs]⟩
  · intro call hcall
    unfold writeStatus at hcall
    split at hcall
    · simp only [List.mem_singleton] at hcall
      exact Or.inl hcall
    · split at hcall <;>
        (simp only [List.mem_cons, List.mem_singleton, List.not_mem_nil, or_false] at hcall
         exact hcall)

/-- C16: `writeStatus` makes the status update first; it makes the update of
the whole resource exactly when the status update failed; and it returns an
error exactly when both failed. -/
theorem writeStatus_fallback (env : Env) (st : Status) :
    (writeStatus env st).2 =
      Call.statusUpdate :: (if env.statusUpdate st = none then [] else [Call.update]) ∧
    (Call.update ∈ (writeStatus env st).2 ↔ env.statusUpdate st ≠ none) ∧
    ((writeStatus env st).1 ≠ none ↔ env.statusUpdate st ≠ none ∧ env.update st ≠ none) := by
  unfold writeStatus
  cases h1 : env.statusUpdate st with
  | none => simp
  | some e1 =>
    cases h2 : env.update st with
    | none => simp
    | some e2 => simp

/-- C14: for a spec with at least one replica set, `connectionEndpoint` gives,
the first match winning: with sharding enabled and the routing tier exposed
through a load balancer, the result of the load balancer lookup for the
service `<name>-mongos`; with sharding enabled otherwise, the name
`<name>-mongos.<namespace>.<suffix>`, whatever the exposure of the replica
sets; without sharding and with the first replica set exposed through a load
balancer, the resolved addresses of its pods joined with commas, in order;
otherwise the name `<name>-<first replica set>.<namespace>.<suffix>`. -/
theorem connectionEndpoint_precedence (env : Env) (cr : CR) (rs : ReplsetSpec)
    (rest : List ReplsetSpec) (hrs : cr.Spec.Replsets = rs :: rest) :
    (cr.Spec.Sharding.Enabled = true →
      cr.Spec.Sharding.Mongos.Expose.Enabled = true ∧
        cr.Spec.Sharding.Mongos.Expose.ExposeType = ServiceType.LoadBalancer →
      connectionEndpoint env cr =
        EndpointResult.returned
          (loadBalancerServiceEndpoint env (cr.Name ++ "-mongos") cr.Namespace).1
          (loadBalancerServiceEndpoint env (cr.Name ++ "-mongos") cr.Namespace).2
          [Call.getService cr.Namespace (cr.Name ++ "-mongos")]) ∧
    (cr.Spec.Sharding.Enabled = true →
      ¬ (cr.Spec.Sharding.Mongos.Expose.Enabled = true ∧
        cr.Spec.Sharding.Mongos.Expose.ExposeType = ServiceType.LoadBalancer) →
      connectionEndpoint env cr =
        EndpointResult.returned
          (cr.Name ++ "-mongos." ++ cr.Namespace ++ "." ++ cr.Spec.ClusterServiceDNSSuffix)
          none []) ∧
    (cr.Spec.Sharding.Enabled = false →
      rs.Expose.Enabled = true ∧ rs.Expose.ExposeType = ServiceType.LoadBalancer →
      ∀ items addrs, env.listPods cr.Namespace cr.Name rs.Name = Except.ok items →
        env.getReplsetAddrs rs items = Except.ok addrs →
        connectionEndpoint env cr =
          EndpointResult.returned (String.intercalate "," addrs) none
            [Call.listPods cr.Namespace cr.Name rs.Name, Call.getReplsetAddrs rs.Name]) ∧
    (cr.Spec.Sharding.Enabled = false →
      ¬ (rs.Expose.Enabled = true ∧ rs.Expose.ExposeType = ServiceType.LoadBalancer) →
      connectionEndpoint env cr =
        EndpointResult.returned
          (cr.Name ++ "-" ++ rs.Name ++ "." ++ cr.Namespace ++ "." ++
            cr.Spec.ClusterServiceDNSSuffix) none []) := by
  refine ⟨?_, ?_, ?_, ?_⟩
  · intro hsh hlb
    simp [connectionEndpoint, hsh, hlb]
  · intro hsh hlb
    simp only [connectionEndpoint, hsh, if_true]
    rw [if_neg hlb]
  · intro hsh hlb items addrs hlist haddrs
    simp [connectionEndpoint, hsh, hrs, hlb, hlist, haddrs]
  · intro hsh hlb
    simp only [connectionEndpoint, hsh, hrs, Bool.false_eq_true, if_false]
    rw [if_neg hlb]

theorem connectionEndpoint_precedence_witness :
    exCRFresh.Spec.Replsets = [exReplset 1] ∧
    connectionEndpoint exEnvReady exCRFresh =
      EndpointResult.returned "c-rs0.ns.svc.cluster.local" none [] :=
  ⟨rfl, (connectionEndpoint_precedence exEnvReady exCRFresh (exReplset 1) [] rfl).2.2.2 rfl
    (by decide)⟩

/-! ## The host on a failed resolution -/

/-- Every error return of `connectionEndpoint` comes with the empty host. -/
theorem connectionEndpoint_error_host (env : Env) (cr : CR) (host e : String)
    (ecalls : List Call)
    (h : connectionEndpoint env cr = EndpointResult.returned host (some e) ecalls) :
    host = "" := by
  unfold connectionEndpoint loadBalancerServiceEndpoint at h
  split_ifs at h
  · cases hg : env.getService cr.Namespace (cr.Name ++ "-mongos") with
    | error err =>
      simp only [hg, EndpointResult.returned.injEq] at h
      exact h.1.symm
    | ok ingress => simp [hg] at h
  · simp at h
  · cases hr : cr.Spec.Replsets with
    | nil => simp [hr] at h
    | cons rs rest =>
      simp only [hr] at h
      split_ifs at h
      · cases hl : env.listPods cr.Namespace cr.Name rs.Name with
        | error err =>
          simp only [hl, EndpointResult.returned.injEq] at h
          exact h.1.symm
        | ok items =>
          simp only [hl] at h
          cases ha : env.getReplsetAddrs rs items with
          | error err =>
            simp only [ha, EndpointResult.returned.injEq] at h
            exact h.1.symm
          | ok addrs => simp [ha] at h
      · simp at h

/-- The calls of `writeStatus` start with the status update. -/
theorem writeStatus_calls_eq (env : Env) (st : Status) :
    (writeStatus env st).2 =
      Call.statusUpdate :: (if env.statusUpdate st = none then [] else [Call.update]) := by
  unfold writeStatus
  cases h1 : env.statusUpdate st with
  | none => simp
  | some e1 =>
    cases h2 : env.update st with
    | none => simp
    | some e2 => simp

/-- C12 (as amended): on a cycle without error whose loop finishes and whose
decision is taken, a failure of `connectionEndpoint` is not fatal:
`updateStatus` still makes the status write and returns its result; the host
written is the empty host returned with the failure, not the host of the
prior status. -/
theorem updateStatus_host_on_failure (env : Env) (cr : CR) (clusterState : mongoClusterState)
    (ls : LoopState) (condType : ClusterConditionType) (state : AppState) (host e : String)
    (ecalls : List Call)
    (hloop : replsetLoop env cr (replsOf cr) (loopStart env cr) = LoopResult.finished ls)
    (hdec : decideState ls.Status.Conditions ls.replsetsReady (replsOf cr).length clusterState =
      some (condType, state))
    (hep : connectionEndpoint env cr = EndpointResult.returned host (some e) ecalls) :
    ∃ st, updateStatus env cr none clusterState =
        Outcome.written st (writeStatus env st).1 (ls.calls ++ ecalls ++ (writeStatus env st).2) ∧
      st.Host = "" ∧ Call.statusUpdate ∈ (writeStatus env st).2 := by
  have hhost := connectionEndpoint_error_host env cr host e ecalls hep
  refine ⟨_, updateStatus_written_eq env cr clusterState ls condType state host (some e) ecalls
    _ hloop hdec hep rfl, hhost, ?_⟩
  rw [(writeStatus_calls_eq env _)]
  exact List.mem_cons_self _ _

theorem updateStatus_host_on_failure_witness :
    connectionEndpoint exEnvNoAddrs exCRHost =
      EndpointResult.returned "" (some "no address")
        [Call.listPods "ns" "c" "rs0", Call.getReplsetAddrs "rs0"] ∧
    ∃ st, updateStatus exEnvNoAddrs exCRHost none mongoClusterState.clusterReady =
        Outcome.written st (writeStatus exEnvNoAddrs st).1
          ([Call.listPods "ns" "c" "rs0", Call.getStatefulSet "ns" "c-rs0"] ++
            [Call.listPods "ns" "c" "rs0", Call.getReplsetAddrs "rs0"] ++
            (writeStatus exEnvNoAddrs st).2) ∧
      st.Host = "" ∧ Call.statusUpdate ∈ (writeStatus exEnvNoAddrs st).2 :=
  ⟨rfl, updateStatus_host_on_failure exEnvNoAddrs exCRHost mongoClusterState.clusterReady
    { Status := exCRHost.Status, clusterCondition := initCondition exNow, replsetsReady := 1,
      inProgress := false,
      calls := [Call.listPods "ns" "c" "rs0", Call.getStatefulSet "ns" "c-rs0"] }
    ClusterConditionType.ClusterReady AppState.AppStateReady "" "no address" _ rfl rfl rfl⟩

/-- C12 (counterexample): the prior status holds the host `old.example.com`;
the replica set is exposed through a load balancer and the addresses of its
pods cannot be resolved, so `connectionEndpoint` returns an error; the cycle
ends with the status write and the host written is empty. -/
theorem updateStatus_host_on_failure_counterexample :
    exCRHost.Status.Host = "old.example.com" ∧
    connectionEndpoint exEnvNoAddrs exCRHost =
      EndpointResult.returned "" (some "no address")
        [Call.listPods "ns" "c" "rs0", Call.getReplsetAddrs "rs0"] ∧
    updateStatus exEnvNoAddrs exCRHost none mongoClusterState.clusterReady =
      Outcome.written { exCRHost.Status with Host := "" } none
        [Call.listPods "ns" "c" "rs0", Call.getStatefulSet "ns" "c-rs0",
         Call.listPods "ns" "c" "rs0", Call.getReplsetAddrs "rs0", Call.statusUpdate] :=
  ⟨rfl, rfl, rfl⟩

/-! ## The condition added for a replica set -/

/-- C13 (as amended): in a finished turn of the loop for the replica set `rs`,
with `new` the state computed for it and `cur` the entry stored for its name:
when the state did not change no condition is added; when it changed to Error
the Error condition with the message `<name>: <message>` is added; when it
changed to Ready and the entry was marked initialized the ReplsetReady
condition is added; on any other change of state a condition is added as
well, namely the Init condition built at the top of the cycle, as long as no
earlier replica set of the cycle has put another condition in its place. -/
theorem replsetStep_transition (env : Env) (cr : CR) (ls ls2 : LoopState) (rs : ReplsetSpec)
    (h : replsetStep env cr ls rs = LoopResult.finished ls2) :
    ∃ items, env.listPods cr.Namespace cr.Name rs.Name = Except.ok items ∧
      ((rsStatusOf env.now rs items).Status = (currentOf ls.Status.Replsets rs.Name).Status →
        ls2.Status.Conditions = ls.Status.Conditions) ∧
      ((rsStatusOf env.now rs items).Status ≠ (currentOf ls.Status.Replsets rs.Name).Status →
        (rsStatusOf env.now rs items).Status = AppState.AppStateError →
        ls2.Status.Conditions = ls.Status.Conditions ++
          [rsErrorCondition env.now rs.Name (rsStatusOf env.now rs items).Message]) ∧
      ((rsStatusOf env.now rs items).Status ≠ (currentOf ls.Status.Replsets rs.Name).Status →
        (rsStatusOf env.now rs items).Status = AppState.AppStateReady →
        (currentOf ls.Status.Replsets rs.Name).Initialized = true →
        ls2.Status.Conditions = ls.Status.Conditions ++ [rsReadyCondition env.now]) ∧
      ((rsStatusOf env.now rs items).Status ≠ (currentOf ls.Status.Replsets rs.Name).Status →
        (rsStatusOf env.now rs items).Status ≠ AppState.AppStateError →
        ¬ ((rsStatusOf env.now rs items).Status = AppState.AppStateReady ∧
          (currentOf ls.Status.Replsets rs.Name).Initialized = true) →
        ls.clusterCondition = initCondition env.now →
        ls2.Status.Conditions = ls.Status.Conditions ++ [initCondition env.now]) := by
  obtain ⟨items, kvs, hlist, hmap, _, hconds, _⟩ := replsetStep_facts env cr ls ls2 rs h
  rw [hmap]
  refine ⟨items, hlist, ?_, ?_, ?_, ?_⟩
  · intro hsame
    rw [hconds, if_neg (not_not.mpr hsame)]
  · intro hne herr
    rw [hconds, if_pos hne]
    simp [transitionCondition, carried, herr]
  · intro hne hready hinit
    rw [hconds, if_pos hne]
    simp [transitionCondition, carried, hready, hinit]
  · intro hne hnerr hnready hcc
    rw [hconds, if_pos hne]
    simp only [transitionCondition, carried, if_neg hnerr, if_neg hnready, hcc]

theorem replsetStep_transition_witness :
    ∃ ls2, replsetStep exEnvReady exCRInitStored (loopStart exEnvReady exCRInitStored)
        (exReplset 1) = LoopResult.finished ls2 ∧
      ls2.Status.Conditions =
        [exCondition ClusterConditionType.ClusterInit, initCondition exNow] := by
  refine ⟨_, rfl, ?_⟩
  obtain ⟨items, hlist, _, _, _, h4⟩ := replsetStep_transition exEnvReady exCRInitStored
    (loopStart exEnvReady exCRInitStored) _ (exReplset 1) rfl
  cases hlist
  exact h4 (by decide) (by decide) (by decide) rfl

/-- C13 (counterexample): the replica set `rs0` is stored in state Init and
not marked initialized; its pod is ready, so its state changes to Ready; the
loop adds the Init condition to the history. -/
theorem replsetStep_transition_counterexample :
    (currentOf exCRInitStored.Status.Replsets "rs0").Status = AppState.AppStateInit ∧
    (currentOf exCRInitStored.Status.Replsets "rs0").Initialized = false ∧
    groupState exEnvReady exCRInitStored (exReplset 1) = AppState.AppStateReady ∧
    exCRInitStored.Status.Conditions = [exCondition ClusterConditionType.ClusterInit] ∧
    conditionsAfterLoop exEnvReady exCRInitStored =
      [exCondition ClusterConditionType.ClusterInit, initCondition exNow] :=
  ⟨rfl, rfl, rfl, rfl, rfl⟩

/-! ## Flags and keys of the map -/

/-- The loop leaves the two flags stored for every name as they were. -/
theorem replsetLoop_flags (env : Env) (cr : CR) (repls : List ReplsetSpec)
    (ls ls2 : LoopState) (h : replsetLoop env cr repls ls = LoopResult.finished ls2)
    (k : String) :
    (currentOf ls2.Status.Replsets k).Initialized = (currentOf ls.Status.Replsets k).Initialized ∧
    (currentOf ls2.Status.Replsets k).AddedAsShard =
      (currentOf ls.Status.Replsets k).AddedAsShard := by
  induction repls generalizing ls with
  | nil =>
    simp only [replsetLoop, LoopResult.finished.injEq] at h
    subst h
    exact ⟨rfl, rfl⟩
  | cons rs rest ih =>
    obtain ⟨ls1, hs, hl⟩ := replsetLoop_cons_finished env cr rs rest ls ls2 h
    obtain ⟨items, kvs, _, hmap, hmap1, _⟩ := replsetStep_facts env cr ls ls1 rs hs
    obtain ⟨h1, h2⟩ := ih ls1 hl
    rw [h1, h2, hmap1, hmap, currentOf_kvSet]
    by_cases hk : rs.Name = k
    · subst hk
      simp [carried]
    · simp [hk]

/-- C20: on a cycle without error that ends with the status write, the entry
stored for every evaluated replica set has the two flags `Initialized` and
`AddedAsShard` of the entry stored for its name in the prior status, and both
flags are false when the prior status has no entry for the name; the pods
listed play no part in either. -/
theorem updateStatus_flags_carried (env : Env) (cr : CR) (clusterState : mongoClusterState)
    (st : Status) (err : Option String) (calls : List Call)
    (h : updateStatus env cr none clusterState = Outcome.written st err calls) :
    ∀ rs ∈ replsOf cr, ∃ s, mapGet st.Replsets rs.Name = some s ∧
      s.Initialized = (currentOf cr.Status.Replsets rs.Name).Initialized ∧
      s.AddedAsShard = (currentOf cr.Status.Replsets rs.Name).AddedAsShard ∧
      (mapGet cr.Status.Replsets rs.Name = none →
        s.Initialized = false ∧ s.AddedAsShard = false) := by
  obtain ⟨ls, condType, state, host, eerr, ecalls, hloop, _, _, hst, _, _⟩ :=
    updateStatus_written_inv env cr clusterState st err calls h
  intro rs hrs
  obtain ⟨_, _, _, s, hs, _⟩ :=
    replsetLoop_map_state env cr (replsOf cr) (loopStart env cr) ls hloop rs hrs
  obtain ⟨f1, f2⟩ := replsetLoop_flags env cr (replsOf cr) (loopStart env cr) ls hloop rs.Name
  have hcur : currentOf ls.Status.Replsets rs.Name = s := by simp [currentOf, hs]
  rw [hcur] at f1 f2
  have hstart : (loopStart env cr).Status.Replsets = cr.Status.Replsets := rfl
  rw [hstart] at f1 f2
  refine ⟨s, by rw [hst]; exact hs, f1, f2, ?_⟩
  intro hnone
  rw [f1, f2]
  simp [currentOf, hnone, ReplsetStatus.zero]

theorem updateStatus_flags_carried_witness :
    updateStatus exEnvReady exCRSettled none mongoClusterState.clusterReady =
      Outcome.written
        { exCRSettled.Status with Host := "c-rs0.ns.svc.cluster.local", ObservedGeneration := 1 }
        none [Call.listPods "ns" "c" "rs0", Call.getStatefulSet "ns" "c-rs0", Call.statusUpdate] ∧
    ∃ s, mapGet exCRSettled.Status.Replsets "rs0" = some s ∧ s.Initialized = true ∧
      s.AddedAsShard = false := by
  obtain ⟨s, h1, h2, h3, _⟩ := updateStatus_flags_carried exEnvReady exCRSettled
    mongoClusterState.clusterReady _ none _ rfl (exReplset 1) (by decide)
  exact ⟨rfl, s, h1, h2, h3⟩

/-- A turn of the loop that does not panic keeps every key of the map. -/
theorem replsetStep_keys (env : Env) (cr : CR) (ls ls1 : LoopState) (rs : ReplsetSpec)
    (h : loopStateOf (replsetStep env cr ls rs) = some ls1) (k : String)
    (hk : (mapGet ls.Status.Replsets k).isSome = true) :
    (mapGet ls1.Status.Replsets k).isSome = true := by
  cases hl : env.listPods cr.Namespace cr.Name rs.Name with
  | error e =>
    simp only [replsetStep, evalReplset, rsStatus, hl, loopStateOf, Option.some.injEq] at h
    subst h
    exact hk
  | ok items =>
    cases hm : ls.Status.Replsets with
    | none => simp [replsetStep, evalReplset, rsStatus, hl, hm, mapSet, loopStateOf] at h
    | some kvs =>
      simp only [replsetStep, evalReplset_eq env cr ls rs items kvs hl hm] at h
      obtain ⟨hS, _, _⟩ := checkUpgrade_Status env cr _ ls1 rs h
      rw [hS]
      rw [hm] at hk
      simp only [mapGet, kvGet_kvSet] at hk ⊢
      split_ifs
      · rfl
      · exact hk

/-- A run of the loop that does not panic keeps every key of the map. -/
theorem replsetLoop_keys (env : Env) (cr : CR) (repls : List ReplsetSpec)
    (ls ls2 : LoopState) (h : loopStateOf (replsetLoop env cr repls ls) = some ls2)
    (k : String) (hk : (mapGet ls.Status.Replsets k).isSome = true) :
    (mapGet ls2.Status.Replsets k).isSome = true := by
  induction repls generalizing ls with
  | nil =>
    simp only [replsetLoop, loopStateOf, Option.some.injEq] at h
    subst h
    exact hk
  | cons rs rest ih =>
    unfold replsetLoop at h
    cases hs : replsetStep env cr ls rs with
    | panicked => simp [hs, loopStateOf] at h
    | failed l e =>
      simp only [hs, loopStateOf, Option.some.injEq] at h
      subst h
      exact replsetStep_keys env cr ls l rs (by simp [hs, loopStateOf]) k hk
    | finished ls1 =>
      simp only [hs] at h
      exact ih ls1 h (replsetStep_keys env cr ls ls1 rs (by simp [hs, loopStateOf]) k hk)

/-- C19: whenever `updateStatus` returns, on a cycle error, on an error of a
query or after the status write, every name that was a key of the map of
replica sets in the prior status is still a key; and after a cycle without
error that ends with the status write the name of every evaluated replica set
is a key. -/
theorem updateStatus_keys (env : Env) (cr : CR) (reconcileErr : Option String)
    (clusterState : mongoClusterState) (st : Status)
    (h : statusLeft (updateStatus env cr reconcileErr clusterState) = some st) :
    (∀ k, (mapGet cr.Status.Replsets k).isSome = true → (mapGet st.Replsets k).isSome = true) ∧
    (reconcileErr = none →
      (∃ err calls, updateStatus env cr reconcileErr clusterState =
        Outcome.written st err calls) →
      ∀ rs ∈ replsOf cr, (mapGet st.Replsets rs.Name).isSome = true) := by
  constructor
  · intro k hk
    cases reconcileErr with
    | some msg =>
      simp only [updateStatus_error_eq, updateStatusOnError, statusLeft, Option.some.injEq] at h
      subst h
      exact hk
    | none =>
      unfold updateStatus at h
      simp only at h
      cases hl : replsetLoop env cr (replsOf cr) (loopStart env cr) with
      | panicked => simp [hl, statusLeft] at h
      | failed l e =>
        simp only [hl, statusLeft, Option.some.injEq] at h
        subst h
        exact replsetLoop_keys env cr (replsOf cr) (loopStart env cr) l
          (by simp [hl, loopStateOf]) k hk
      | finished ls =>
        have hkeys := replsetLoop_keys env cr (replsOf cr) (loopStart env cr) ls
          (by simp [hl, loopStateOf]) k hk
        simp only [hl, updateStatusAfterLoop] at h
        cases hd : decideState ls.Status.Conditions ls.replsetsReady (replsOf cr).length
            clusterState with
        | none => simp [hd, statusLeft] at h
        | some p =>
          obtain ⟨condType, state⟩ := p
          simp only [hd] at h
          cases he : connectionEndpoint env cr with
          | panicked c => simp [he, statusLeft] at h
          | returned host eerr ecalls =>
            simp only [he, statusLeft, Option.some.injEq] at h
            subst h
            exact hkeys
  · intro hnone hw rs hrs
    subst hnone
    obtain ⟨err, calls, hw⟩ := hw
    obtain ⟨ls, _, _, _, _, _, hloop, _, _, hst, _, _⟩ :=
      updateStatus_written_inv env cr clusterState st err calls hw
    obtain ⟨_, _, _, s, hs, _⟩ :=
      replsetLoop_map_state env cr (replsOf cr) (loopStart env cr) ls hloop rs hrs
    rw [hst]
    simp only
    rw [hs]
    rfl

theorem updateStatus_keys_witness :
    statusLeft (updateStatus exEnvReady exCRSettled (some "boom")
      mongoClusterState.clusterReady) =
      some { exCRSettled.Status with
             Conditions := exCRSettled.Status.Conditions ++
               [reconcileErrorCondition exNow "boom"],
             Message := "Error: boom", State := AppState.AppStateError } ∧
    (mapGet exCRSettled.Status.Replsets "rs0").isSome = true ∧
    (mapGet (some [("rs0", exReadyEntry)]) "rs0").isSome = true :=
  ⟨rfl, rfl,
    (updateStatus_keys exEnvReady exCRSettled (some "boom") mongoClusterState.clusterReady _
      rfl).1 "rs0" rfl⟩

/-! ## A query that fails -/

/-- A finished run over a list made of two parts is a finished run over the
first part followed by a finished run over the second. -/
theorem replsetLoop_append_finished (env : Env) (cr : CR) (pre post : List ReplsetSpec)
    (ls ls2 : LoopState) (h : replsetLoop env cr (pre ++ post) ls = LoopResult.finished ls2) :
    ∃ ls1, replsetLoop env cr pre ls = LoopResult.finished ls1 ∧
      replsetLoop env cr post ls1 = LoopResult.finished ls2 := by
  induction pre generalizing ls with
  | nil => exact ⟨ls, rfl, h⟩
  | cons rs rest ih =>
    obtain ⟨lsa, hs, hl⟩ := replsetLoop_cons_finished env cr rs (rest ++ post) ls ls2 h
    obtain ⟨ls1, h1, h2⟩ := ih lsa hl
    refine ⟨ls1, ?_, h2⟩
    simp only [replsetLoop, hs]
    exact h1

/-- A finished run listed the pods of every replica set. -/
theorem replsetLoop_listed (env : Env) (cr : CR) (repls : List ReplsetSpec)
    (ls ls2 : LoopState) (h : replsetLoop env cr repls ls = LoopResult.finished ls2) :
    ∀ rs ∈ repls, ∃ items, env.listPods cr.Namespace cr.Name rs.Name = Except.ok items := by
  induction repls generalizing ls with
  | nil => intro rs hrs; cases hrs
  | cons r rest ih =>
    obtain ⟨ls1, hs, hl⟩ := replsetLoop_cons_finished env cr r rest ls ls2 h
    obtain ⟨items, _, hlist, _⟩ := replsetStep_facts env cr ls ls1 r hs
    intro rs hrs
    rcases List.mem_cons.mp hrs with rfl | hrs
    · exact ⟨items, hlist⟩
    · exact ih ls1 hl rs hrs

/-- The second half of a turn never panics, leaves the status alone and logs
at most one query. -/
theorem checkUpgrade_allocated (env : Env) (cr : CR) (ls : LoopState) (rs : ReplsetSpec) :
    ∃ ls1, loopStateOf (checkUpgrade env cr ls rs) = some ls1 ∧ ls1.Status = ls.Status ∧
      (∀ c ∈ ls1.calls, c ∈ ls.calls ∨ isQuery c = true) := by
  unfold checkUpgrade
  cases hp : ls.inProgress with
  | true => exact ⟨ls, by simp [loopStateOf], rfl, fun c hc => Or.inl hc⟩
  | false =>
    have hq : ∀ c ∈ ls.calls ++ [Call.getStatefulSet cr.Namespace (cr.Name ++ "-" ++ rs.Name)],
        c ∈ ls.calls ∨ isQuery c = true := by
      intro c hc
      rcases List.mem_append.mp hc with hc | hc
      · exact Or.inl hc
      · rw [List.mem_singleton.mp hc]
        exact Or.inr rfl
    cases hu : upgradeInProgress env cr rs.Name with
    | error e =>
      exact ⟨{ ls with inProgress := false,
                       calls := ls.calls ++
                         [Call.getStatefulSet cr.Namespace (cr.Name ++ "-" ++ rs.Name)] },
        by simp [loopStateOf], rfl, hq⟩
    | ok b =>
      exact ⟨{ ls with inProgress := b,
                       calls := ls.calls ++
                         [Call.getStatefulSet cr.Namespace (cr.Name ++ "-" ++ rs.Name)] },
        by simp [loopStateOf], rfl, hq⟩

/-- A turn of the loop from an allocated map does not panic, leaves the map
allocated and logs queries only. -/
theorem replsetStep_allocated (env : Env) (cr : CR) (ls : LoopState) (rs : ReplsetSpec)
    (kvs : List (String × ReplsetStatus)) (hmap : ls.Status.Replsets = some kvs) :
    ∃ ls1, loopStateOf (replsetStep env cr ls rs) = some ls1 ∧
      (∃ kvs1, ls1.Status.Replsets = some kvs1) ∧
      (∀ c ∈ ls1.calls, c ∈ ls.calls ∨ isQuery c = true) := by
  have hq : ∀ c ∈ ls.calls ++ [Call.listPods cr.Namespace cr.Name rs.Name],
      c ∈ ls.calls ∨ isQuery c = true := by
    intro c hc
    rcases List.mem_append.mp hc with hc | hc
    · exact Or.inl hc
    · rw [List.mem_singleton.mp hc]
      exact Or.inr rfl
  cases hl : env.listPods cr.Namespace cr.Name rs.Name with
  | error e =>
    have hstep : replsetStep env cr ls rs =
        LoopResult.failed { ls with calls := ls.calls ++ [Call.listPods cr.Namespace cr.Name rs.Name] }
          ("get replset " ++ rs.Name ++ " status: " ++ ("get list: " ++ e)) := by
      simp only [replsetStep, evalReplset, rsStatus, hl]
    rw [hstep]
    exact ⟨_, rfl, ⟨kvs, hmap⟩, hq⟩
  | ok items =>
    obtain ⟨lse, he, hme, hce⟩ : ∃ lse, evalReplset env cr ls rs = LoopResult.finished lse ∧
        (∃ kvs1, lse.Status.Replsets = some kvs1) ∧
        lse.calls = ls.calls ++ [Call.listPods cr.Namespace cr.Name rs.Name] :=
      ⟨_, evalReplset_eq env cr ls rs items kvs hl hmap, ⟨_, rfl⟩, rfl⟩
    have hstep : replsetStep env cr ls rs = checkUpgrade env cr lse rs := by
      simp only [replsetStep, he]
    obtain ⟨ls1, h1, hS, hc⟩ := checkUpgrade_allocated env cr lse rs
    rw [hstep]
    refine ⟨ls1, h1, ?_, ?_⟩
    · rw [hS]
      exact hme
    · intro c hcm
      rcases hc c hcm with hc0 | hq0
      · rw [hce] at hc0
        exact hq c hc0
      · exact Or.inr hq0

/-- A run of the loop from an allocated map does not panic and logs queries
only. -/
theorem replsetLoop_allocated (env : Env) (cr : CR) (repls : List ReplsetSpec)
    (ls : LoopState) (kvs : List (String × ReplsetStatus))
    (hmap : ls.Status.Replsets = some kvs) :
    ∃ ls2, loopStateOf (replsetLoop env cr repls ls) = some ls2 ∧
      (∀ c ∈ ls2.calls, c ∈ ls.calls ∨ isQuery c = true) := by
  induction repls generalizing ls kvs with
  | nil => exact ⟨ls, rfl, fun c hc => Or.inl hc⟩
  | cons rs rest ih =>
    obtain ⟨ls1, h1, ⟨kvs1, hm1⟩, hc1⟩ := replsetStep_allocated env cr ls rs kvs hmap
    unfold replsetLoop
    cases hs : replsetStep env cr ls rs with
    | panicked => simp [hs, loopStateOf] at h1
    | failed l e =>
      simp only [hs, loopStateOf, Option.some.injEq] at h1
      subst h1
      exact ⟨l, rfl, hc1⟩
    | finished l =>
      simp only [hs, loopStateOf, Option.some.injEq] at h1
      subst h1
      obtain ⟨ls2, h2, hc2⟩ := ih l kvs1 hm1
      refine ⟨ls2, h2, ?_⟩
      intro c hc
      rcases hc2 c hc with hc | hq
      · exact hc1 c hc
      · exact Or.inr hq

/-- C15: on a cycle without error, from a status whose map of replica sets is
allocated, when the pod listing of some evaluated replica set fails, or the
stateful set lookup of a replica set fails while the detector has answered
true for no replica set before it (so that the lookup is made), `updateStatus`
returns an error and makes no write: neither the status update nor the update
of the whole resource is among its calls. -/
theorem updateStatus_query_failure (env : Env) (cr : CR) (clusterState : mongoClusterState)
    (kvs : List (String × ReplsetStatus)) (hmap : cr.Status.Replsets = some kvs)
    (hfail :
      (∃ rs ∈ replsOf cr, ∃ e, env.listPods cr.Namespace cr.Name rs.Name = Except.error e) ∨
      (∃ pre rs post e, replsOf cr = pre ++ rs :: post ∧ (∀ r ∈ pre, ¬ rollout env cr r) ∧
        env.getStatefulSet cr.Namespace (cr.Name ++ "-" ++ rs.Name) = Except.error e)) :
    ∃ st err calls, updateStatus env cr none clusterState = Outcome.aborted st err calls ∧
      Call.statusUpdate ∉ calls ∧ Call.update ∉ calls := by
  obtain ⟨ls2, h2, hc2⟩ := replsetLoop_allocated env cr (replsOf cr) (loopStart env cr) kvs hmap
  cases hl : replsetLoop env cr (replsOf cr) (loopStart env cr) with
  | panicked => simp [hl, loopStateOf] at h2
  | finished ls =>
    exfalso
    rcases hfail with ⟨rs, hrs, e, herr⟩ | ⟨pre, rs, post, e, hsplit, hpre, herr⟩
    · obtain ⟨items, hitems⟩ :=
        replsetLoop_listed env cr (replsOf cr) (loopStart env cr) ls hl rs hrs
      rw [herr] at hitems
      cases hitems
    · rw [hsplit] at hl
      obtain ⟨ls1, ha, hb⟩ :=
        replsetLoop_append_finished env cr pre (rs :: post) (loopStart env cr) ls hl
      have hp1 : ls1.inProgress = false := by
        cases hp : ls1.inProgress with
        | false => rfl
        | true =>
          rcases replsetLoop_inProgress_of_true env cr pre (loopStart env cr) ls1 ha hp
            with h0 | ⟨r, hr, hroll⟩
          · simp [loopStart] at h0
          · exact absurd hroll (hpre r hr)
      obtain ⟨lsb, hs, _⟩ := replsetLoop_cons_finished env cr rs post ls1 ls hb
      obtain ⟨_, _, _, _, _, _, _, _, _, _, _, _, _, hP2⟩ :=
        replsetStep_facts env cr ls1 lsb rs hs
      obtain ⟨sfs, hsfs, _⟩ := hP2 hp1
      rw [herr] at hsfs
      cases hsfs
  | failed l e =>
    simp only [hl, loopStateOf, Option.some.injEq] at h2
    subst h2
    refine ⟨l.Status, e, l.calls, by simp only [updateStatus, hl], ?_, ?_⟩
    · intro hc
      rcases hc2 _ hc with h0 | hq
      · simp [loopStart] at h0
      · simp [isQuery] at hq
    · intro hc
      rcases hc2 _ hc with h0 | hq
      · simp [loopStart] at h0
      · simp [isQuery] at hq

theorem updateStatus_query_failure_witness :
    exCRFresh.Status.Replsets = some [] ∧
    exEnvNoSfs.getStatefulSet "ns" "c-rs0" = Except.error "not found" ∧
    ∃ st err calls,
      updateStatus exEnvNoSfs exCRFresh none mongoClusterState.clusterReady =
        Outcome.aborted st err calls ∧
      Call.statusUpdate ∉ calls ∧ Call.update ∉ calls :=
  ⟨rfl, rfl,
    updateStatus_query_failure exEnvNoSfs exCRFresh mongoClusterState.clusterReady [] rfl
      (Or.inr ⟨[], exReplset 1, [], "not found", rfl, by simp, rfl⟩)⟩

/-! ## The trim -/

/-- What the trim keeps: the whole history when it is within the bound, its
last `maxStatusesQuantity` entries otherwise, in their order. -/
theorem trimConditions_spec (conditions : List ClusterCondition) :
    trimConditions conditions =
      (if conditions.length ≤ maxStatusesQuantity then conditions
       else conditions.drop (conditions.length - maxStatusesQuantity)) ∧
    (∃ older, conditions = older ++ trimConditions conditions) ∧
    (trimConditions conditions).length = min conditions.length maxStatusesQuantity := by
  unfold trimConditions
  by_cases h : conditions.length > maxStatusesQuantity
  · rw [if_pos h, if_neg (by omega)]
    refine ⟨rfl, ⟨conditions.take (conditions.length - maxStatusesQuantity),
      (List.take_append_drop _ _).symm⟩, ?_⟩
    rw [List.length_drop]
    omega
  · rw [if_neg h, if_pos (by omega)]
    exact ⟨rfl, ⟨[], rfl⟩, by omega⟩

theorem historyBeforeTrim_of_stages (env : Env) (cr : CR) (clusterState : mongoClusterState)
    (ls : LoopState) (condType : ClusterConditionType) (state : AppState)
    (hloop : replsetLoop env cr (replsOf cr) (loopStart env cr) = LoopResult.finished ls)
    (hdec : decideState ls.Status.Conditions ls.replsetsReady (replsOf cr).length clusterState =
      some (condType, state)) :
    historyBeforeTrim env cr clusterState =
      appendCondition ls.Status.Conditions (decisionCondition env.now condType) := by
  simp only [historyBeforeTrim, hloop, hdec]

/-- C17: on a cycle without error that ends with the status write, with `H`
the history after all the additions of the cycle and before the trim, the
history written is `H` itself when `H` has at most `maxStatusesQuantity` = 20
entries, and otherwise the last 20 entries of `H`, in their order: `H` is some
older entries followed by the history written. -/
theorem updateStatus_trim (env : Env) (cr : CR) (clusterState : mongoClusterState)
    (st : Status) (err : Option String) (calls : List Call)
    (h : updateStatus env cr none clusterState = Outcome.written st err calls) :
    st.Conditions =
      (if (historyBeforeTrim env cr clusterState).length ≤ maxStatusesQuantity then
        historyBeforeTrim env cr clusterState
       else (historyBeforeTrim env cr clusterState).drop
        ((historyBeforeTrim env cr clusterState).length - maxStatusesQuantity)) ∧
    (∃ older, historyBeforeTrim env cr clusterState = older ++ st.Conditions) ∧
    st.Conditions.length = min (historyBeforeTrim env cr clusterState).length 20 := by
  obtain ⟨ls, condType, state, host, eerr, ecalls, hloop, hdec, _, hst, _, _⟩ :=
    updateStatus_written_inv env cr clusterState st err calls h
  rw [historyBeforeTrim_of_stages env cr clusterState ls condType state hloop hdec]
  have hc : st.Conditions = trimConditions
      (appendCondition ls.Status.Conditions (decisionCondition env.now condType)) := by
    rw [hst]
  rw [hc]
  exact trimConditions_spec _

theorem updateStatus_trim_witness :
    exCycles 24 = some exCRAfter24 ∧
    updateStatus (exEnvAt 25) exCRAfter24 none (exSignalAt 25) =
      Outcome.written exStatusAfter25 none
        [Call.listPods "ns" "c" "rs0", Call.getStatefulSet "ns" "c-rs0", Call.statusUpdate] ∧
    (historyBeforeTrim (exEnvAt 25) exCRAfter24 (exSignalAt 25)).length = 21 ∧
    exStatusAfter25.Conditions =
      (historyBeforeTrim (exEnvAt 25) exCRAfter24 (exSignalAt 25)).drop 1 ∧
    exStatusAfter25.Conditions.map (fun x => (x.Type_, x.LastTransitionTime)) =
      (List.range' 6 20).map (fun i =>
        ((if i % 2 = 1 then ClusterConditionType.ClusterInit
          else ClusterConditionType.ClusterError), (i : Int))) := by
  have h := (updateStatus_trim (exEnvAt 25) exCRAfter24 (exSignalAt 25) exStatusAfter25 none
    [Call.listPods "ns" "c" "rs0", Call.getStatefulSet "ns" "c-rs0", Call.statusUpdate]
    (by decide)).1
  exact ⟨by decide, by decide, by decide, h.trans (by decide), by decide⟩

/-- C18 (failing input): the prior status has an empty history and stores the
replica set `rs0` in state Init; no pod is listed, so the state computed is
Init again and the loop adds no condition; with the signal `clusterInit` the
decision reads the last element of the empty history and the cycle ends in a
panic. The same happens for a spec without any replica set. -/
theorem updateStatus_empty_history_panics :
    exCRNoHistory.Status.Conditions = [] ∧
    conditionsAfterLoop (constEnv exNow [] exSfsDone) exCRNoHistory = [] ∧
    updateStatus (constEnv exNow [] exSfsDone) exCRNoHistory none
      mongoClusterState.clusterInit = Outcome.panicked ∧
    updateStatus exEnvReady exCRNoGroups none mongoClusterState.clusterInit =
      Outcome.panicked :=
  ⟨rfl, rfl, rfl, rfl⟩

end Psmdb
